import Mathlib

/-!
# Dub Siren firmware — verification of the synthesiser core

A shallow embedding of the real-time audio synthesis core of the Dub Siren
firmware (files `Synthesiser/Synthesiser.c`, `Synthesiser/Waveforms.c`,
`Filters/FirstOrderFilter.c`, `Filters/CascadeFilter.c`, `Dac/Dac.c`,
`MathHelpers.h`), together with theorems settling the specification claims.

Modelling conventions:

* C `float` values are modelled as exact rationals (`ℚ`); every arithmetic
  operation of the source is translated to the corresponding exact operation.
* C casts from `float` to an integer type are truncation toward zero and are
  modelled by `ratTrunc`.  Where the C cast has no defined result (a zero or
  negative divisor producing a non-finite operand, as in
  `WaveformsOneBitNoise`), the model returns `Option.none`.
* `unsigned int` arithmetic is modelled on `ℕ` with an explicit `% 2^32`
  (`usub32` for the wrapping subtraction the source performs).
* The two `while` loops of `WaveformsLimitNormalisedPeriod` are modelled by
  structurally recursive functions driven by an explicit iteration count that
  equals the number of times each loop body runs; fixed-point lemmas
  (`addOneLoop_eq`, `subOneLoop_eq`) show they satisfy the loop equations.
* The corner-frequency formulas of `FirstOrderFilterSetCornerFrequency`
  involve π and therefore have no exact rational value; the coefficients the
  initialisation code computes are carried as parameters of the model
  (`EnvConsts`), constrained to the interval the formulas provably land in.
* The waveform tables of `WaveformTables.h` are not part of the provided
  sources; the table contents, table counts, `WAVEFORM_TABLE_LENGTH`,
  `MINIMUM_FREQUENCY` and `MAXIMUM_FREQUENCY` are modelled from the spec as
  parameters (`EnvConsts`): fixed read-only amplitude arrays with a table
  count per family.
-/

namespace DubSiren

/-- The `CLAMP` macro of `MathHelpers.h` on rationals: `MIN(MAX(value, lo), hi)`. -/
def clampQ (value lo hi : ℚ) : ℚ := min (max value lo) hi

/-- The `CLAMP` macro of `MathHelpers.h` on (mathematical) C `int` values. -/
def clampZ (value lo hi : ℤ) : ℤ := min (max value lo) hi

/-- The `CLAMP` macro of `MathHelpers.h` on `unsigned int` values. -/
def clampN (value lo hi : ℕ) : ℕ := min (max value lo) hi

/-- The `MAP` macro of `MathHelpers.h`:
`(x - x1) / (x2 - x1) * (y2 - y1) + y1`. -/
def mapQ (x x1 x2 y1 y2 : ℚ) : ℚ := (x - x1) / (x2 - x1) * (y2 - y1) + y1

/-- The `ROUND` macro of `MathHelpers.h`: `floorf(value + 0.5f)`. -/
def roundQ (value : ℚ) : ℤ := ⌊value + 1/2⌋

/-- C cast from `float` to an integer type: truncation toward zero. -/
def ratTrunc (q : ℚ) : ℤ := if 0 ≤ q then ⌊q⌋ else ⌈q⌉

/-- Wrapping 32-bit unsigned subtraction `a - b` (for `b ≤ 2^32`). -/
def usub32 (a b : ℕ) : ℕ := (a + (2 ^ 32 - b)) % 2 ^ 32

/-- The C cast from `float` to `int`: truncation toward zero, with a defined
result only when the truncated value is representable in the 32-bit `int`
range `[-2^31, 2^31 - 1]`. -/
def castToInt (q : ℚ) : Option ℤ :=
  if -(2 ^ 31) ≤ ratTrunc q ∧ ratTrunc q < 2 ^ 31 then some (ratTrunc q) else none

/-! ## `WaveformsLimitNormalisedPeriod` (`Waveforms.c`, lines 30–38)

```c
float WaveformsLimitNormalisedPeriod(float normalisedPeriod) {
    while (normalisedPeriod < 0.0f) { normalisedPeriod += 1.0f; }
    while (normalisedPeriod > 1.0f) { normalisedPeriod -= 1.0f; }
    return normalisedPeriod;
}
```

Each loop is modelled by a structurally recursive function whose iteration
count is the exact number of times the loop body runs (`⌈-p⌉` and `⌈p⌉ - 1`
respectively); the fixed-point lemmas below show the functions satisfy the
loop equations. -/

/-- Body iteration of `while (p < 0) p += 1`, driven by an iteration count. -/
def addOneAux : ℕ → ℚ → ℚ
  | 0, p => p
  | n + 1, p => if p < 0 then addOneAux n (p + 1) else p

/-- The loop `while (p < 0) p += 1`. -/
def addOneLoop (p : ℚ) : ℚ := addOneAux (Int.toNat ⌈-p⌉) p

/-- Body iteration of `while (p > 1) p -= 1`, driven by an iteration count. -/
def subOneAux : ℕ → ℚ → ℚ
  | 0, p => p
  | n + 1, p => if 1 < p then subOneAux n (p - 1) else p

/-- The loop `while (p > 1) p -= 1`. -/
def subOneLoop (p : ℚ) : ℚ := subOneAux (Int.toNat ⌈p⌉) p

/-- The `WaveformsLimitNormalisedPeriod`: the first loop followed by the second. -/
def limitNormalisedPeriod (normalisedPeriod : ℚ) : ℚ :=
  subOneLoop (addOneLoop normalisedPeriod)



/-! ## Environment constants

`SAMPLE_FREQUENCY` is `96000.0f` (`Dac.h`).  The remaining constants either
come from `WaveformTables.h`, which is not among the provided sources, or are
computed by `FirstOrderFilterSetCornerFrequency` from a formula involving π
and therefore have no exact rational value. -/

/-- Modelled from the spec: the constants missing from the provided sources.
`sineTable`, the per-family anti-aliasing tables with their table counts and
`WAVEFORM_TABLE_LENGTH` are the "fixed-length, read-only amplitude arrays,
one per waveform family, plus a small ordered set of additional tables per
family pre-tuned for specific harmonic counts" of `WaveformTables.h`;
`minimumFrequency`/`maximumFrequency` are its `MINIMUM_FREQUENCY` and
`MAXIMUM_FREQUENCY`.  `kGate` and `kDelayTime` are the low-pass coefficients
`FirstOrderFilterSetCornerFrequency` computes at initialisation for 100 Hz
and 1 Hz corners, and `cascadeCoefficient f hp` is the coefficient that
function computes for corner frequency `f` in mode `hp`; their π-based
formulas land in `(0, 1)` for positive corner and sample frequencies. -/
structure EnvConsts where
  kGate : ℚ
  kDelayTime : ℚ
  cascadeCoefficient : ℚ → Bool → ℚ
  tableLength : ℕ
  minimumFrequency : ℚ
  maximumFrequency : ℚ
  sineTable : ℕ → ℚ
  triangleTable : ℕ → ℕ → ℚ
  sawtoothTable : ℕ → ℕ → ℚ
  squareTable : ℕ → ℕ → ℚ
  pulseTable : ℕ → ℕ → ℚ
  numberOfTriangleWaveforms : ℕ
  numberOfSawtoothWaveforms : ℕ
  numberOfSquareWaveforms : ℕ
  numberOfPulseWaveforms : ℕ

/-- The `SAMPLE_FREQUENCY` (`Dac.h`, line 16): `96000.0f`. -/
def sampleFrequency : ℚ := 96000

/-! ## Waveforms (`Waveforms.c`) -/

/-- The `InterpolateWaveformTable` (`Waveforms.c`, lines 46–56): fractional index
`normalisedPeriod * (WAVEFORM_TABLE_LENGTH - 1)`, linear interpolation
between the floor and ceil entries, exact entry when they coincide. -/
def interpolateWaveformTable (waveformTable : ℕ → ℚ) (tableLength : ℕ)
    (normalisedPeriod : ℚ) : ℚ :=
  let index := normalisedPeriod * ((tableLength - 1 : ℕ) : ℚ)
  let indexFloor : ℚ := (⌊index⌋ : ℤ)
  let indexCeil : ℚ := (⌈index⌉ : ℤ)
  if indexFloor = indexCeil then waveformTable (ratTrunc index).toNat
  else
    mapQ index indexFloor indexCeil
      (waveformTable (ratTrunc indexFloor).toNat)
      (waveformTable (ratTrunc indexCeil).toNat)

/-- The `WaveformsSine` (`Waveforms.c`, lines 63–65). -/
def waveformsSine (env : EnvConsts) (normalisedPeriod : ℚ) : ℚ :=
  interpolateWaveformTable env.sineTable env.tableLength normalisedPeriod

/-- The `harmonic = (unsigned int)((float) MAXIMUM_FREQUENCY / frequency)`
(`Waveforms.c`, lines 87, 112, 137, 169). -/
def harmonicOf (maximumFrequency frequency : ℚ) : ℕ :=
  (ratTrunc (maximumFrequency / frequency)).toNat

/-- The `CLAMP(((harmonic - 1) / 2) - 1, 0, count - 1)` in `unsigned int`
arithmetic (`Waveforms.c`, lines 88 and 138; the two subtractions wrap
modulo `2^32`). -/
def triangleWaveformIndex (harmonic count : ℕ) : ℕ :=
  clampN (usub32 (usub32 harmonic 1 / 2) 1) 0 (count - 1)

/-- The `CLAMP(harmonic - 2, 0, count - 1)` in `unsigned int` arithmetic
(`Waveforms.c`, lines 113 and 170; the subtraction wraps modulo `2^32`). -/
def sawtoothWaveformIndex (harmonic count : ℕ) : ℕ :=
  clampN (usub32 harmonic 2) 0 (count - 1)

/-- The `WaveformsBandwidthLimitedTriangle` (`Waveforms.c`, lines 74–90). -/
def waveformsBandwidthLimitedTriangle (env : EnvConsts)
    (normalisedPeriod frequency : ℚ) : ℚ :=
  if frequency < env.minimumFrequency then
    if normalisedPeriod < 1/2 then -4 * (normalisedPeriod - 1/4)
    else 4 * (normalisedPeriod - 3/4)
  else if env.maximumFrequency ≤ frequency then
    interpolateWaveformTable env.sineTable env.tableLength normalisedPeriod
  else
    let harmonic := harmonicOf env.maximumFrequency frequency
    interpolateWaveformTable
      (env.triangleTable (triangleWaveformIndex harmonic env.numberOfTriangleWaveforms))
      env.tableLength normalisedPeriod

/-- The `WaveformsBandwidthLimitedSawtooth` (`Waveforms.c`, lines 99–115). -/
def waveformsBandwidthLimitedSawtooth (env : EnvConsts)
    (normalisedPeriod frequency : ℚ) : ℚ :=
  if frequency < env.minimumFrequency then -2 * normalisedPeriod + 1
  else if env.maximumFrequency ≤ frequency then
    interpolateWaveformTable env.sineTable env.tableLength normalisedPeriod
  else
    let harmonic := harmonicOf env.maximumFrequency frequency
    interpolateWaveformTable
      (env.sawtoothTable (sawtoothWaveformIndex harmonic env.numberOfSawtoothWaveforms))
      env.tableLength normalisedPeriod

/-- The `WaveformsBandwidthLimitedSquare` (`Waveforms.c`, lines 124–140). -/
def waveformsBandwidthLimitedSquare (env : EnvConsts)
    (normalisedPeriod frequency : ℚ) : ℚ :=
  if frequency < env.minimumFrequency then
    if normalisedPeriod < 1/2 then 1 else -1
  else if env.maximumFrequency ≤ frequency then
    interpolateWaveformTable env.sineTable env.tableLength normalisedPeriod
  else
    let harmonic := harmonicOf env.maximumFrequency frequency
    interpolateWaveformTable
      (env.squareTable (triangleWaveformIndex harmonic env.numberOfSquareWaveforms))
      env.tableLength normalisedPeriod

/-- The `WaveformsBandwidthLimitedPulse` (`Waveforms.c`, lines 149–172). -/
def waveformsBandwidthLimitedPulse (env : EnvConsts)
    (normalisedPeriod frequency : ℚ) : ℚ :=
  if frequency < env.minimumFrequency then
    if normalisedPeriod < 1/20 then 1
    else if 19/20 < normalisedPeriod then 1
    else -1
  else if env.maximumFrequency ≤ frequency then
    interpolateWaveformTable env.sineTable env.tableLength normalisedPeriod
  else
    let harmonic := harmonicOf env.maximumFrequency frequency
    interpolateWaveformTable
      (env.pulseTable (sawtoothWaveformIndex harmonic env.numberOfPulseWaveforms))
      env.tableLength normalisedPeriod

/-- The three `static` locals of `WaveformsOneBitNoise` (`Waveforms.c`,
lines 183–190): held output value, sample counter, 16-bit LFSR. -/
structure NoiseState where
  returnValue : ℚ
  sampleCounter : ℕ
  lfsr : ℕ
deriving DecidableEq

/-- Initial values of the `static` locals: `returnValue = 1.0f`,
`sampleCounter = 0`, `lfsr = 0xACE1`. -/
def initialNoiseState : NoiseState := ⟨1, 0, 0xACE1⟩

/-- The `samplesPerUpdate = (unsigned int)(sampleFrequency / frequency)`
(`Waveforms.c`, line 184).  The conversion has a defined result only when
the quotient is finite (nonzero divisor) and lies in the `unsigned int`
range; a zero divisor yields a non-finite quotient and a negative quotient
is outside the range, so both give `none`. -/
def noiseSamplesPerUpdate (frequency sampleFreq : ℚ) : Option ℕ :=
  if frequency ≠ 0 ∧ 0 ≤ sampleFreq / frequency ∧ sampleFreq / frequency < 2 ^ 32 then
    some (ratTrunc (sampleFreq / frequency)).toNat
  else none

/-- The `WaveformsOneBitNoise` (`Waveforms.c`, lines 182–205): post-increment
compare of the sample counter against the update interval; on update, shift
the LFSR right once, XOR with `0xB400` when the shifted-out bit was 1, and
set the output to `+1`/`-1` from that bit; otherwise hold the output. -/
def waveformsOneBitNoise (frequency sampleFreq : ℚ) (s : NoiseState) :
    Option (NoiseState × ℚ) :=
  match noiseSamplesPerUpdate frequency sampleFreq with
  | none => none
  | some samplesPerUpdate =>
    if samplesPerUpdate ≤ s.sampleCounter then
      let lsb := s.lfsr % 2 = 1
      let shifted := s.lfsr / 2
      let lfsr := if lsb then shifted ^^^ 0xB400 else shifted
      let returnValue : ℚ := if lsb then 1 else -1
      some (⟨returnValue, 0, lfsr⟩, returnValue)
    else
      some (⟨s.returnValue, s.sampleCounter + 1, s.lfsr⟩, s.returnValue)

/-- The `WaveformsAsymmetricSine` (`Waveforms.c`, lines 214–222). -/
def waveformsAsymmetricSine (env : EnvConsts) (normalisedPeriod shape : ℚ) : ℚ :=
  let skewedNormalisedPeriod :=
    if normalisedPeriod < shape then mapQ normalisedPeriod 0 shape 0 (1/2)
    else mapQ normalisedPeriod shape 1 (1/2) 1
  interpolateWaveformTable env.sineTable env.tableLength
    (limitNormalisedPeriod (skewedNormalisedPeriod - 1/4))

/-- The `WaveformsTriangle` (`Waveforms.c`, lines 231–237). -/
def waveformsTriangle (normalisedPeriod shape : ℚ) : ℚ :=
  if normalisedPeriod < shape then mapQ normalisedPeriod 0 shape (-1) 1
  else mapQ normalisedPeriod shape 1 1 (-1)

/-- The `WaveformsSawtooth` (`Waveforms.c`, lines 246–249). -/
def waveformsSawtooth (normalisedPeriod shape : ℚ) : ℚ :=
  2 * (clampQ ((1 + shape * shape * 10) * normalisedPeriod) 0 1 - 1/2)

/-- The `WaveformsSquare` (`Waveforms.c`, lines 258–260). -/
def waveformsSquare (normalisedPeriod shape : ℚ) : ℚ :=
  if normalisedPeriod < shape then -1 else 1

/-- The `WaveformsSteppedTriangle` (`Waveforms.c`, lines 268–278).  The step
count is modelled on ℤ; it agrees with the source's `unsigned int` for
`shape ∈ [0, 1]` (values 3..32), the C conversion being undefined for
negative values. -/
def waveformsSteppedTriangle (normalisedPeriod shape : ℚ) : ℚ :=
  let numberOfSteps : ℤ := 3 + roundQ (shape * 29)
  let numberOfStepsMinusOne : ℚ := ((numberOfSteps - 1 : ℤ) : ℚ)
  let risingHalf : ℚ :=
    ((⌊(2 * normalisedPeriod - 1) * numberOfStepsMinusOne⌋ : ℤ) : ℚ) *
      (1 / numberOfStepsMinusOne)
  let fallingHalf : ℚ :=
    ((⌈(-2 * normalisedPeriod + 1) * numberOfStepsMinusOne⌉ : ℤ) : ℚ) *
      (1 / numberOfStepsMinusOne)
  let normalisedWaveform : ℚ :=
    if 1/2 < normalisedPeriod then risingHalf else fallingHalf
  let result : ℚ := -2 * (normalisedWaveform - 1/2)
  result

/-- The `WaveformsSteppedSawtooth` (`Waveforms.c`, lines 286–290); step count
modelled as for `waveformsSteppedTriangle`. -/
def waveformsSteppedSawtooth (normalisedPeriod shape : ℚ) : ℚ :=
  let numberOfSteps : ℤ := 3 + roundQ (shape * 29)
  let normalisedWaveform :=
    ((⌊normalisedPeriod * (numberOfSteps : ℚ)⌋ : ℤ) : ℚ) * (1 / ((numberOfSteps : ℚ) - 1))
  2 * (normalisedWaveform - 1/2)

/-! ## First-order and cascade filters (`FirstOrderFilter.c`, `CascadeFilter.c`) -/

/-- The `FirstOrderFilter` structure (`FirstOrderFilter.h`). -/
structure FirstOrderFilter where
  isHighPass : Bool
  previousInput : ℚ
  previousOutput : ℚ
  coefficient : ℚ
deriving DecidableEq

/-- The `FirstOrderFilterUpdate` (`FirstOrderFilter.c`, lines 43–54): returns
the updated filter state and the output sample. -/
def firstOrderFilterUpdate (f : FirstOrderFilter) (input : ℚ) :
    FirstOrderFilter × ℚ :=
  let output :=
    if f.isHighPass then f.coefficient * (f.previousOutput + input - f.previousInput)
    else f.previousOutput + (input - f.previousOutput) * f.coefficient
  ({ f with previousInput := input, previousOutput := output }, output)

/-- The `CascadeFilter` structure (`CascadeFilter.h`): up to
`MAXIMUM_NUMBER_OF_CASCADED_FILTERS = 3` first-order stages. -/
structure CascadeFilter where
  numberOfFilters : ℕ
  filters : Fin 3 → FirstOrderFilter

/-- The `CascadeFilterSetCornerFrequency` (`CascadeFilter.c`, lines 24–33):
clamps the stage count to `[1, 3]` and writes the mode and the (already
computed) coefficient into every active stage, preserving filter state. -/
def cascadeFilterSetCornerFrequency (c : CascadeFilter) (coefficient : ℚ)
    (isHighPass : Bool) (numberOfFilters : ℕ) : CascadeFilter :=
  let n := clampN numberOfFilters 1 3
  { numberOfFilters := n
    filters := fun i =>
      if (i : ℕ) < n then
        { c.filters i with isHighPass := isHighPass, coefficient := coefficient }
      else c.filters i }

/-- One guarded stage of the `CascadeFilterUpdate` loop. -/
def cascadeStage (n : ℕ) (acc : (Fin 3 → FirstOrderFilter) × ℚ) (i : Fin 3) :
    (Fin 3 → FirstOrderFilter) × ℚ :=
  if (i : ℕ) < n then
    let r := firstOrderFilterUpdate (acc.1 i) acc.2
    (Function.update acc.1 i r.1, r.2)
  else acc

/-- The `CascadeFilterUpdate` (`CascadeFilter.c`, lines 42–49): feed the input
through stages `0 ≤ index < numberOfFilters` in order (the stage count is
at most 3 everywhere the structure is built). -/
def cascadeFilterUpdate (c : CascadeFilter) (input : ℚ) : CascadeFilter × ℚ :=
  let n := c.numberOfFilters
  let r := cascadeStage n (cascadeStage n (cascadeStage n (c.filters, input) 0) 1) 2
  ({ c with filters := r.1 }, r.2)

/-! ## DAC boundary (`Dac.c`) -/

/-- The `DacWriteBuffer` (`Dac.c`, lines 98–100): the `int` DAC code stored in
`buffer`, `CLAMP(sample, -1.0f, 1.0f) * (float) 0x7FFFFF` converted to
`int` (truncation toward zero). -/
def dacWriteBuffer (sample : ℚ) : ℤ :=
  ratTrunc (clampQ sample (-1) 1 * 0x7FFFFF)

/-! ## Synthesiser (`Synthesiser.c`, `Synthesiser.h`) -/

/-- The `LfoWaveform` enum (`Synthesiser.h`). -/
inductive LfoWaveform
  | sine
  | triangle
  | sawtooth
  | square
  | steppedTriangle
  | steppedSawtooth
deriving DecidableEq

/-- The `VcoWaveform` enum (`Synthesiser.h`). -/
inductive VcoWaveform
  | sine
  | triangle
  | sawtooth
  | square
  | pulse
  | oneBitNoise
deriving DecidableEq

/-- The `DelayFilterType` enum (`Synthesiser.h`). -/
inductive DelayFilterType
  | none
  | lowPass
  | highPass
deriving DecidableEq

/-- The `SynthesiserParameters` structure (`Synthesiser.h`). -/
structure SynthesiserParameters where
  lfoWaveform : LfoWaveform
  lfoShape : ℚ
  lfoFrequency : ℚ
  lfoAmplitude : ℚ
  lfoGateControl : Bool
  vcoWaveform : VcoWaveform
  vcoFrequency : ℚ
  delayTime : ℚ
  delayFeedback : ℚ
  delayFilterType : DelayFilterType
  delayFilterFrequency : ℚ
deriving DecidableEq

/-- The `DEFAULT_SYTHESISER_PARAMETERS` (`Synthesiser.h`). -/
def defaultSynthesiserParameters : SynthesiserParameters :=
  { lfoWaveform := .sine
    lfoShape := 1/2
    lfoFrequency := 2
    lfoAmplitude := 500
    lfoGateControl := false
    vcoWaveform := .sine
    vcoFrequency := 1000
    delayTime := 0
    delayFeedback := 0
    delayFilterType := .none
    delayFilterFrequency := 1 }

/-- The zero-initialised `static SynthesiserParameters synthesiserParameters`
(`Synthesiser.c`, line 43): all-zero fields, enums at their first value. -/
def zeroSynthesiserParameters : SynthesiserParameters :=
  { lfoWaveform := .sine
    lfoShape := 0
    lfoFrequency := 0
    lfoAmplitude := 0
    lfoGateControl := false
    vcoWaveform := .sine
    vcoFrequency := 0
    delayTime := 0
    delayFeedback := 0
    delayFilterType := .none
    delayFilterFrequency := 0 }

/-- The `PREEMPTIVE_GATE_PERIOD` (`Synthesiser.c`, line 23): `0.01`. -/
def preemptiveGatePeriod : ℚ := 1/100

/-- The `DELAY_BUFFER_SIZE` (`Synthesiser.c`, line 28): `128000`. -/
def delayBufferSize : ℕ := 128000

/-- The module-level and `static`-local state of `Synthesiser.c` mutated by
the real-time context: the active and pending parameter snapshots with the
pending flag, the trigger and gate flags, the two fixed first-order
filters, the delay cascade filter, the delay buffer with its write cursor,
the two oscillator phases (`lfoPeriodClock`, `vcoPeriodClock`), the
buffered outbound sample (`static float output` of `AudioUpdate`), and the
`static` locals of `WaveformsOneBitNoise`. -/
structure EngineState where
  synthesiserParameters : SynthesiserParameters
  pendingSynthesiserParameters : SynthesiserParameters
  newSynthesiserParametersPending : Bool
  trigger : Bool
  gate : Bool
  gateGainLowPassFilter : FirstOrderFilter
  delayTimeLowPassFilter : FirstOrderFilter
  delayFilter : CascadeFilter
  delayBuffer : ℕ → ℚ
  delayBufferIndex : ℕ
  lfoPeriodClock : ℚ
  vcoPeriodClock : ℚ
  output : ℚ
  noise : NoiseState

/-- State after `SynthesiserInitialise` (`Synthesiser.c`, lines 43–52 and
61–69): zero-initialised statics, pending flag raised over the default
parameters, gate open, and the two fixed low-pass filters configured with
the coefficients computed for 100 Hz and 1 Hz corners. -/
def initialEngineState (env : EnvConsts) : EngineState :=
  { synthesiserParameters := zeroSynthesiserParameters
    pendingSynthesiserParameters := defaultSynthesiserParameters
    newSynthesiserParametersPending := true
    trigger := false
    gate := true
    gateGainLowPassFilter := ⟨false, 0, 0, env.kGate⟩
    delayTimeLowPassFilter := ⟨false, 0, 0, env.kDelayTime⟩
    delayFilter := ⟨0, fun _ => ⟨false, 0, 0, 0⟩⟩
    delayBuffer := fun _ => 0
    delayBufferIndex := 0
    lfoPeriodClock := 0
    vcoPeriodClock := 0
    output := 0
    noise := initialNoiseState }

/-- The gate-close test of `AudioUpdate` (`Synthesiser.c`, line 149),
applied to the just-advanced (not yet wrapped) `lfoPeriodClock`:
`lfoGateControl && lfoPeriodClock >= 1.0f - PREEMPTIVE_GATE_PERIOD * lfoFrequency`. -/
def lfoGateCloseCondition (lfoGateControl : Bool)
    (lfoFrequency advancedLfoPeriodClock : ℚ) : Bool :=
  lfoGateControl && decide (1 - preemptiveGatePeriod * lfoFrequency ≤ advancedLfoPeriodClock)

/-- The LFO waveform dispatch of `AudioUpdate` (`Synthesiser.c`,
lines 127–147). -/
def lfoWaveformValue (env : EnvConsts) (p : SynthesiserParameters)
    (lfoPeriodClock : ℚ) : ℚ :=
  match p.lfoWaveform with
  | .sine => waveformsAsymmetricSine env lfoPeriodClock p.lfoShape
  | .triangle => waveformsTriangle lfoPeriodClock p.lfoShape
  | .sawtooth => waveformsSawtooth lfoPeriodClock p.lfoShape
  | .square => waveformsSquare lfoPeriodClock p.lfoShape
  | .steppedTriangle => waveformsSteppedTriangle lfoPeriodClock p.lfoShape
  | .steppedSawtooth => waveformsSteppedSawtooth lfoPeriodClock p.lfoShape

/-- The VCO waveform dispatch of `AudioUpdate` (`Synthesiser.c`,
lines 157–176); the one-bit-noise branch threads the noise state and is
undefined (`none`) when its update-interval conversion is. -/
def vcoWaveformValue (env : EnvConsts) (p : SynthesiserParameters)
    (vcoPeriodClock vcoModulatedFrequency : ℚ) (noise : NoiseState) :
    Option (ℚ × NoiseState) :=
  match p.vcoWaveform with
  | .sine => some (waveformsSine env vcoPeriodClock, noise)
  | .triangle =>
    some (waveformsBandwidthLimitedTriangle env vcoPeriodClock vcoModulatedFrequency, noise)
  | .sawtooth =>
    some (waveformsBandwidthLimitedSawtooth env vcoPeriodClock vcoModulatedFrequency, noise)
  | .square =>
    some (waveformsBandwidthLimitedSquare env vcoPeriodClock vcoModulatedFrequency, noise)
  | .pulse =>
    some (waveformsBandwidthLimitedPulse env vcoPeriodClock vcoModulatedFrequency, noise)
  | .oneBitNoise =>
    (waveformsOneBitNoise vcoModulatedFrequency sampleFrequency noise).map
      (fun r => (r.2, r.1))

/-- The `WriteToDelayBuffer` (`Synthesiser.c`, lines 203–205). -/
def writeToDelayBuffer (buffer : ℕ → ℚ) (index : ℕ) (sample : ℚ) : ℕ → ℚ :=
  Function.update buffer index sample

/-- The read-index computation of `ReadFromDelayBuffer` (`Synthesiser.c`,
lines 214–218): `delayBufferIndex - CLAMP((int)(delayTime * SAMPLE_FREQUENCY),
0, DELAY_BUFFER_SIZE)`, with `DELAY_BUFFER_SIZE` added on underflow.  The
`(int)` conversion happens before the clamp and has no defined result when
the scaled delay time falls outside the `int` range (`castToInt`), in which
case the whole computation is undefined (`none`). -/
def delayReadIndex (delayBufferIndex : ℕ) (filteredDelayTime : ℚ) : Option ℤ :=
  (castToInt (filteredDelayTime * sampleFrequency)).map (fun delaySamples =>
    let readIndex : ℤ :=
      (delayBufferIndex : ℤ) - clampZ delaySamples 0 (delayBufferSize : ℤ)
    if readIndex < 0 then (delayBufferSize : ℤ) + readIndex else readIndex)

/-- The `ReadFromDelayBuffer` (`Synthesiser.c`, lines 212–220): low-pass filter
the requested delay time, then read at the wrapped index.  Returns the
updated filter state and the sample read; `none` when the delay-time `int`
conversion has no defined result. -/
def readFromDelayBuffer (delayTimeFilter : FirstOrderFilter) (buffer : ℕ → ℚ)
    (index : ℕ) (delayTime : ℚ) : Option (FirstOrderFilter × ℚ) :=
  let r := firstOrderFilterUpdate delayTimeFilter delayTime
  (delayReadIndex index r.2).map (fun readIndex => (r.1, buffer readIndex.toNat))

/-- The `MixToDelayBuffer` (`Synthesiser.c`, lines 226–228):
`delayBuffer[delayBufferIndex] += CLAMP(sample, -1.0f, 1.0f)`. -/
def mixToDelayBuffer (buffer : ℕ → ℚ) (index : ℕ) (sample : ℚ) : ℕ → ℚ :=
  Function.update buffer index (buffer index + clampQ sample (-1) 1)

/-- The `IncrementDelayBufferIndex` (`Synthesiser.c`, lines 233–237). -/
def incrementDelayBufferIndex (index : ℕ) : ℕ :=
  if delayBufferSize ≤ index + 1 then 0 else index + 1

/-- The gate and attenuation block of `AudioUpdate` (`Synthesiser.c`,
lines 180–186): smooth the boolean gate through the fixed low-pass filter,
multiply the oscillator output by the smoothed gain, then attenuate by
0.25.  Returns the updated filter and the attenuated post-gate sample. -/
def gateSection (gateGainFilter : FirstOrderFilter) (gate : Bool) (vcoOut : ℚ) :
    FirstOrderFilter × ℚ :=
  let gfr := firstOrderFilterUpdate gateGainFilter (if gate then 1 else 0)
  (gfr.1, vcoOut * gfr.2 * (1/4))

/-- The delay block of `AudioUpdate` (`Synthesiser.c`, lines 188–196):
write the post-gate sample, read back with the smoothed delay, scale by the
feedback amount, optionally cascade-filter, mix (clamped) into the buffer,
advance the cursor.  Returns the new buffer, the updated delay-time filter,
the updated cascade filter, the new cursor, and the feedback sample that is
added to the output; `none` when the delay-time `int` conversion has no
defined result. -/
def delaySection (params : SynthesiserParameters) (delayTimeFilter : FirstOrderFilter)
    (delayFilter0 : CascadeFilter) (buffer : ℕ → ℚ) (index : ℕ) (output2 : ℚ) :
    Option ((ℕ → ℚ) × FirstOrderFilter × CascadeFilter × ℕ × ℚ) :=
  let buffer1 := writeToDelayBuffer buffer index output2
  (readFromDelayBuffer delayTimeFilter buffer1 index params.delayTime).map (fun rr =>
    let delaySample0 := params.delayFeedback * rr.2
    let dfr :=
      if params.delayFilterType ≠ DelayFilterType.none
      then cascadeFilterUpdate delayFilter0 delaySample0
      else (delayFilter0, delaySample0)
    (mixToDelayBuffer buffer1 index dfr.2, rr.1, dfr.1,
      incrementDelayBufferIndex index, dfr.2))

/-- The body of `AudioUpdate` (`Synthesiser.c`, lines 120–196) after the
parameter-adoption block, taking the snapshot in effect for this sample and
the (possibly re-tuned) delay cascade filter.  In source order: trigger
handling, LFO evaluation and phase advance with the pre-emptive gate close,
VCO evaluation and phase advance, then `gateSection` and `delaySection`;
the stored output is the attenuated post-gate sample plus the feedback
sample.  Returns `none` only when the one-bit-noise update-interval
conversion or the delay-time `int` conversion has no defined result. -/
def audioUpdateCore (env : EnvConsts) (params : SynthesiserParameters)
    (delayFilter0 : CascadeFilter) (s : EngineState) : Option EngineState :=
  let trigger0 := if s.trigger then false else s.trigger
  let lfoPeriodClock0 := if s.trigger then 0 else s.lfoPeriodClock
  let gate0 := if s.trigger then true else s.gate
  let lfoWaveform := lfoWaveformValue env params lfoPeriodClock0
  let lfoPeriodClock1 := lfoPeriodClock0 + (1 / sampleFrequency) * params.lfoFrequency
  let gate1 :=
    if lfoGateCloseCondition params.lfoGateControl params.lfoFrequency lfoPeriodClock1
    then false else gate0
  let lfoPeriodClock2 := limitNormalisedPeriod lfoPeriodClock1
  let vcoModulatedFrequency := params.vcoFrequency + params.lfoAmplitude * lfoWaveform
  match vcoWaveformValue env params s.vcoPeriodClock vcoModulatedFrequency s.noise with
  | none => none
  | some (vcoOut, noise1) =>
    let vcoPeriodClock1 :=
      limitNormalisedPeriod
        (s.vcoPeriodClock + (1 / sampleFrequency) * vcoModulatedFrequency)
    let gs := gateSection s.gateGainLowPassFilter gate1 vcoOut
    (delaySection params s.delayTimeLowPassFilter delayFilter0
        s.delayBuffer s.delayBufferIndex gs.2).map (fun ds =>
        { synthesiserParameters := params
          pendingSynthesiserParameters := s.pendingSynthesiserParameters
          newSynthesiserParametersPending := false
          trigger := trigger0
          gate := gate1
          gateGainLowPassFilter := gs.1
          delayTimeLowPassFilter := ds.2.1
          delayFilter := ds.2.2.1
          delayBuffer := ds.1
          delayBufferIndex := ds.2.2.2.1
          lfoPeriodClock := lfoPeriodClock2
          vcoPeriodClock := vcoPeriodClock1
          output := gs.2 + ds.2.2.2.2
          noise := noise1 })

/-- The `AudioUpdate` (`Synthesiser.c`, lines 103–197), as one state transition.
Its first action, `DacWriteBuffer(output)`, hands the previous invocation's
sample to the DAC: that value is the `output` field of the pre-state (see
`engineWrittenSample`).  The parameter-adoption block (lines 110–118) then
selects the snapshot for this sample — copying the pending snapshot and
re-tuning the delay cascade coefficients when the pending flag is up, which
leaves the flag lowered in either case — and the rest of the body runs as
`audioUpdateCore`. -/
def audioUpdate (env : EnvConsts) (s : EngineState) : Option EngineState :=
  if s.newSynthesiserParametersPending then
    audioUpdateCore env s.pendingSynthesiserParameters
      (cascadeFilterSetCornerFrequency s.delayFilter
        (env.cascadeCoefficient s.pendingSynthesiserParameters.delayFilterFrequency
          (s.pendingSynthesiserParameters.delayFilterType = .highPass))
        (s.pendingSynthesiserParameters.delayFilterType = .highPass) 3)
      s
  else audioUpdateCore env s.synthesiserParameters s.delayFilter s

/-- External calls completed by the non-real-time context between two
`AudioUpdate` invocations: an optional completed `SynthesiserSetParameters`
publish, a `SynthesiserTrigger` request, an optional `SynthesiserSetGate`.
(Atomicity of the publish protocol itself is analysed separately by the
interleaving model below.) -/
structure ExternalInputs where
  publish : Option SynthesiserParameters
  triggerRequest : Bool
  setGate : Option Bool

/-- No external activity. -/
def quietInputs : ExternalInputs := ⟨Option.none, false, Option.none⟩

/-- Effect of the external calls on the module state: a completed publish
leaves the pending snapshot fully written with the flag raised
(`SynthesiserSetParameters`, lines 71–75), a trigger raises the trigger
flag (line 81), a gate call overwrites the gate flag (line 89). -/
def applyExternalInputs (inputs : ExternalInputs) (s : EngineState) : EngineState :=
  let s1 :=
    match inputs.publish with
    | some p =>
      { s with pendingSynthesiserParameters := p, newSynthesiserParametersPending := true }
    | Option.none => s
  let s2 := if inputs.triggerRequest then { s1 with trigger := true } else s1
  match inputs.setGate with
  | some g => { s2 with gate := g }
  | Option.none => s2

/-- One sample period: external activity, then the `AudioUpdate` invocation. -/
def engineStep (env : EnvConsts) (inputs : ExternalInputs) (s : EngineState) :
    Option EngineState :=
  audioUpdate env (applyExternalInputs inputs s)

/-- Engine state after `n` sample periods. -/
def engineStates (env : EnvConsts) (ins : ℕ → ExternalInputs) : ℕ → Option EngineState
  | 0 => some (initialEngineState env)
  | n + 1 => (engineStates env ins n).bind (engineStep env (ins n))

/-- The sample handed to `DacWriteBuffer` as the first action of invocation
`n`: the `output` value buffered in the state at that moment. -/
def engineWrittenSample (env : EnvConsts) (ins : ℕ → ExternalInputs) (n : ℕ) :
    Option ℚ :=
  (engineStates env ins n).map (fun s => (applyExternalInputs (ins n) s).output)

/-! ## Parameter store publish/consume interleaving (`Synthesiser.c`,
lines 71–75 and 110–118)

`SynthesiserSetParameters` runs in the non-real-time context and is
preemptible between its source-level statements; the consumer
(`AudioUpdate`) runs in the higher-priority real-time context and is atomic
with respect to the producer.  The producer is modelled instruction by
instruction: clear the pending flag, write each of the 11 snapshot fields of
`SynthesiserParameters` in turn, raise the flag.  Field values are
abstracted to rationals (enums and booleans encoded as numbers). -/

/-- Number of fields of `SynthesiserParameters`. -/
abbrev numParameterFields : ℕ := 11

/-- A parameter snapshot abstracted to its 11 field values. -/
def ParameterSnapshot : Type := Fin numParameterFields → ℚ

/-- State of the parameter store: the pending flag, the pending snapshot
buffer being written by the producer, the consumer's active snapshot, and
the producer's program counter within `SynthesiserSetParameters`
(0 = not started, 1 = flag cleared, `1 + i` = first `i` fields written,
`numParameterFields + 2` = flag raised, publish complete). -/
structure ParameterStoreState where
  pendingFlag : Bool
  pending : ParameterSnapshot
  active : ParameterSnapshot
  producerPC : ℕ

/-- The consumer's parameter-adoption step (`AudioUpdate`, lines 110–118):
if the flag is up, copy the whole pending snapshot and clear the flag. -/
def parameterStoreConsume (s : ParameterStoreState) : ParameterStoreState :=
  if s.pendingFlag then { s with active := s.pending, pendingFlag := false }
  else s

/-- Store state before the publish starts: the pending buffer holds the
previously published snapshot `oldSnap` (with the flag in either position),
the consumer holds some active snapshot. -/
def parameterStoreInit (oldSnap activeSnap : ParameterSnapshot) (flag : Bool) :
    ParameterStoreState :=
  { pendingFlag := flag, pending := oldSnap, active := activeSnap, producerPC := 0 }

/-- Interleaved execution: producer statements of
`SynthesiserSetParameters(newSnap)` in program order, with consumer
adoption steps allowed at any point between them. -/
inductive ParameterStoreStep (newSnap : ParameterSnapshot) :
    ParameterStoreState → ParameterStoreState → Prop
  | clearFlag (s : ParameterStoreState) (h : s.producerPC = 0) :
      ParameterStoreStep newSnap s
        { s with pendingFlag := false, producerPC := 1 }
  | writeField (s : ParameterStoreState) (i : Fin numParameterFields)
      (h : s.producerPC = (i : ℕ) + 1) :
      ParameterStoreStep newSnap s
        { s with pending := Function.update s.pending i (newSnap i),
                 producerPC := s.producerPC + 1 }
  | raiseFlag (s : ParameterStoreState) (h : s.producerPC = numParameterFields + 1) :
      ParameterStoreStep newSnap s
        { s with pendingFlag := true, producerPC := s.producerPC + 1 }
  | consume (s : ParameterStoreState) :
      ParameterStoreStep newSnap s (parameterStoreConsume s)

/-- Invariant of the publish protocol: the flag is down throughout the
producer's critical section, and whenever the flag is up the pending buffer
is a complete snapshot (the old one before the publish started, the new one
after it finished). -/
def ParameterStoreInv (oldSnap newSnap : ParameterSnapshot)
    (s : ParameterStoreState) : Prop :=
  s.producerPC ≤ numParameterFields + 2 ∧
  (s.producerPC = 0 → s.pending = oldSnap) ∧
  (∀ i : Fin numParameterFields, (i : ℕ) + 1 < s.producerPC → s.pending i = newSnap i) ∧
  (1 ≤ s.producerPC → s.producerPC ≤ numParameterFields + 1 → s.pendingFlag = false) ∧
  (s.pendingFlag = true → s.producerPC = 0 ∨ s.producerPC = numParameterFields + 2)

/-! ## Claim formalisations and concrete instances -/

/-- Conditions the real device's environment constants satisfy: the
initialisation-computed filter coefficients lie in `(0, 1)` (their π-based
formulas do for positive corner and sample frequencies), the band-limit
thresholds are ordered positive frequencies, and every stored table
amplitude lies in `[-1, 1]`. -/
def GoodEnv (env : EnvConsts) : Prop :=
  0 < env.kGate ∧ env.kGate < 1 ∧ 0 < env.kDelayTime ∧ env.kDelayTime < 1 ∧
  0 < env.minimumFrequency ∧ env.minimumFrequency ≤ env.maximumFrequency ∧
  (∀ i, |env.sineTable i| ≤ 1) ∧
  (∀ t i, |env.triangleTable t i| ≤ 1) ∧
  (∀ t i, |env.sawtoothTable t i| ≤ 1) ∧
  (∀ t i, |env.squareTable t i| ≤ 1) ∧
  (∀ t i, |env.pulseTable t i| ≤ 1)

/-- The environment conditions actually needed for the output bound: gate
coefficient in `[0, 1]` and tables bounded by 1. -/
def GoodEnvBounds (env : EnvConsts) : Prop :=
  0 ≤ env.kGate ∧ env.kGate ≤ 1 ∧
  (∀ i, |env.sineTable i| ≤ 1) ∧
  (∀ t i, |env.triangleTable t i| ≤ 1) ∧
  (∀ t i, |env.sawtoothTable t i| ≤ 1) ∧
  (∀ t i, |env.squareTable t i| ≤ 1) ∧
  (∀ t i, |env.pulseTable t i| ≤ 1)

/-- A parameter snapshot with in-range delay feedback and the delay filter
disabled. -/
def GoodSnapshot (p : SynthesiserParameters) : Prop :=
  0 ≤ p.delayFeedback ∧ p.delayFeedback ≤ 1 ∧ p.delayFilterType = DelayFilterType.none

/-- Input streams whose every published snapshot is good. -/
def GoodInputs (ins : ℕ → ExternalInputs) : Prop :=
  ∀ n p, (ins n).publish = some p → GoodSnapshot p

/-- Inductive invariant for the output bound: both parameter snapshots are
good, the gate-gain filter is the low-pass stage configured at
initialisation with state in `[0, 1]`, every delay-buffer sample is within
`[-5/4, 5/4]`, the VCO phase is within `[0, 1]`, and the held noise output
is within `[-1, 1]`. -/
def EngineInv (env : EnvConsts) (s : EngineState) : Prop :=
  GoodSnapshot s.synthesiserParameters ∧
  GoodSnapshot s.pendingSynthesiserParameters ∧
  s.gateGainLowPassFilter.isHighPass = false ∧
  s.gateGainLowPassFilter.coefficient = env.kGate ∧
  0 ≤ s.gateGainLowPassFilter.previousOutput ∧
  s.gateGainLowPassFilter.previousOutput ≤ 1 ∧
  (∀ i, |s.delayBuffer i| ≤ 5/4) ∧
  0 ≤ s.vcoPeriodClock ∧ s.vcoPeriodClock ≤ 1 ∧
  |s.noise.returnValue| ≤ 1

/-- Boolean check that an engine state (when defined) has its buffered
output within `[-bound, bound]`. -/
def outputWithin (bound : ℚ) (o : Option EngineState) : Bool :=
  match o with
  | some s => decide (-bound ≤ s.output ∧ s.output ≤ bound)
  | Option.none => true

/-- Claim C6 as stated: for every environment satisfying the real device's
conditions, every input stream (hence every reachable state and parameter
snapshot) and every invocation, the sample computed by one `AudioUpdate`
lies in `[-1, 1]`. -/
def OutputAlwaysWithinUnit : Prop :=
  ∀ env : EnvConsts, GoodEnv env → ∀ (ins : ℕ → ExternalInputs) (n : ℕ),
    outputWithin 1 (engineStates env ins (n + 1)) = true

/-- Claim C4 as stated: the wrap always lands in the half-open `[0, 1)`. -/
def LimitReturnsHalfOpen : Prop :=
  ∀ p : ℚ, 0 ≤ limitNormalisedPeriod p ∧ limitNormalisedPeriod p < 1

/-- Claim C5 as stated: with LFO gate control enabled, the per-sample step
(which tests the already-advanced clock, here `p + lfoFrequency/sampleRate`
for pre-advance phase `p`) closes the gate exactly when the pre-advance
phase is within `0.01 × lfoFrequency` of wrapping. -/
def GateClosePreAdvanceClaim : Prop :=
  ∀ f p : ℚ,
    lfoGateCloseCondition true f (p + (1 / sampleFrequency) * f) = true ↔
      1 - preemptiveGatePeriod * f ≤ p

/-- Claim C3 as stated: for band-limited frequencies the selected table
index equals the clamped signed-integer formulas (`(harmonic−1)/2 − 1` for
triangle/square, `harmonic − 2` for sawtooth/pulse). -/
def BandwidthIndexSignedClaim : Prop :=
  ∀ (minF maxF f : ℚ) (countT countS : ℕ),
    0 < minF → minF ≤ f → f < maxF → 1 ≤ countT → 1 ≤ countS →
    triangleWaveformIndex (harmonicOf maxF f) countT =
        (clampZ (((harmonicOf maxF f : ℤ) - 1) / 2 - 1) 0 ((countT : ℤ) - 1)).toNat ∧
      sawtoothWaveformIndex (harmonicOf maxF f) countS =
        (clampZ ((harmonicOf maxF f : ℤ) - 2) 0 ((countS : ℤ) - 1)).toNat

/-- Run of `WaveformsOneBitNoise` called once per sample from its initial
`static` state. -/
def noiseRun (frequency : ℚ) : ℕ → Option (NoiseState × ℚ)
  | 0 => waveformsOneBitNoise frequency sampleFrequency initialNoiseState
  | n + 1 =>
    (noiseRun frequency n).bind
      (fun r => waveformsOneBitNoise frequency sampleFrequency r.1)

/-- The value returned by call `n + 1` of the run. -/
def noiseRunOutput (frequency : ℚ) (n : ℕ) : Option ℚ :=
  (noiseRun frequency n).map Prod.snd

/-- Claim C7 as stated: at `frequency = sampleRate/2` every pair of
consecutive calls returns different values. -/
def NoiseTogglesEveryCall : Prop :=
  ∀ n : ℕ,
    noiseRunOutput (sampleFrequency / 2) (n + 1) ≠ noiseRunOutput (sampleFrequency / 2) n

/-- Claim C8 as stated: for every delay time — negative, zero, or
arbitrarily large — and every in-range write cursor, the read-index
computation of `ReadFromDelayBuffer` has a defined result that lies in
`[0, DELAY_BUFFER_SIZE)`. -/
def DelayReadDefinedInBounds : Prop :=
  ∀ (index : ℕ) (t : ℚ), index < delayBufferSize →
    ∃ ri, delayReadIndex index t = some ri ∧ 0 ≤ ri ∧ ri < (delayBufferSize : ℤ)

/-- Claim C10 as stated: the stored DAC code equals
`clamp(sample, -1, 1) × 0x7FFFFF` exactly. -/
def DacCodeEqualsScaledClamp : Prop :=
  ∀ s : ℚ, (dacWriteBuffer s : ℚ) = clampQ s (-1) 1 * 0x7FFFFF

/-- Concrete environment instance used by counterexamples and witnesses:
coefficients `1/2`, thresholds 20 Hz / 20 kHz, all-zero tables of length 8,
16 anti-aliasing tables per family. -/
def envWitness : EnvConsts :=
  { kGate := 1/2
    kDelayTime := 1/2
    cascadeCoefficient := fun _ _ => 1/2
    tableLength := 8
    minimumFrequency := 20
    maximumFrequency := 20000
    sineTable := fun _ => 0
    triangleTable := fun _ _ => 0
    sawtoothTable := fun _ _ => 0
    squareTable := fun _ _ => 0
    pulseTable := fun _ _ => 0
    numberOfTriangleWaveforms := 16
    numberOfSawtoothWaveforms := 16
    numberOfSquareWaveforms := 16
    numberOfPulseWaveforms := 16 }

/-- Concrete snapshot driving the feedback delay into overload: silent LFO,
zero-frequency square VCO (constant +1 before the gate), a 3-sample delay
request and full feedback with no delay filter. -/
def paramsWitness : SynthesiserParameters :=
  { lfoWaveform := .square
    lfoShape := 1/2
    lfoFrequency := 0
    lfoAmplitude := 0
    lfoGateControl := false
    vcoWaveform := .square
    vcoFrequency := 0
    delayTime := 3/96000
    delayFeedback := 1
    delayFilterType := .none
    delayFilterFrequency := 1 }

/-- Input stream publishing `paramsWitness` before the first invocation and
quiet afterwards. -/
def insWitness : ℕ → ExternalInputs :=
  fun n => if n = 0 then ⟨some paramsWitness, false, Option.none⟩ else quietInputs

/-- All-quiet input stream. -/
def insQuiet : ℕ → ExternalInputs := fun _ => quietInputs

/-! ## Helper lemmas -/

theorem ratTrunc_nonneg {q : ℚ} (h : 0 ≤ q) : 0 ≤ ratTrunc q := by
  simp only [ratTrunc, if_pos h]
  exact Int.floor_nonneg.mpr h

theorem ratTrunc_le_self {q : ℚ} (h : 0 ≤ q) : (ratTrunc q : ℚ) ≤ q := by
  simp only [ratTrunc, if_pos h]
  exact Int.floor_le q

theorem abs_ratTrunc_le {q b : ℚ} (h : |q| ≤ b) : |(ratTrunc q : ℚ)| ≤ b := by
  rcases le_or_lt 0 q with hq | hq
  · rw [ratTrunc, if_pos hq, abs_of_nonneg (by exact_mod_cast Int.floor_nonneg.mpr hq)]
    calc (⌊q⌋ : ℚ) ≤ q := Int.floor_le q
    _ ≤ b := (abs_of_nonneg hq ▸ h)
  · rw [ratTrunc, if_neg (not_le.mpr hq)]
    have h1 : q ≤ (⌈q⌉ : ℚ) := Int.le_ceil q
    have h2 : (⌈q⌉ : ℚ) ≤ 0 := by
      exact_mod_cast Int.ceil_le.mpr (show q ≤ ((0 : ℤ) : ℚ) by exact_mod_cast hq.le)
    rw [abs_of_nonpos h2]
    have : -q ≤ b := by
      have := abs_of_neg hq ▸ h
      linarith
    linarith

theorem clampQ_le {v lo hi : ℚ} : clampQ v lo hi ≤ hi := min_le_right _ _

theorem le_clampQ {v lo hi : ℚ} (h : lo ≤ hi) : lo ≤ clampQ v lo hi :=
  le_min (le_max_right _ _) h

theorem abs_clampQ_le {v : ℚ} {b : ℚ} (hb : 0 ≤ b) : |clampQ v (-b) b| ≤ b :=
  abs_le.mpr ⟨le_clampQ (by linarith), clampQ_le⟩


theorem addOneAux_of_nonneg {p : ℚ} (h : 0 ≤ p) : ∀ n, addOneAux n p = p
  | 0 => rfl
  | n + 1 => by simp [addOneAux, not_lt.mpr h]

/-- The `addOneLoop` satisfies the `while (p < 0) p += 1` loop equation. -/
theorem addOneLoop_eq (p : ℚ) :
    addOneLoop p = if p < 0 then addOneLoop (p + 1) else p := by
  rcases lt_or_le p 0 with h | h
  · rw [if_pos h]
    have h1 : 1 ≤ ⌈-p⌉ := Int.one_le_ceil_iff.mpr (by linarith)
    have h2 : ⌈-(p + 1)⌉ = ⌈-p⌉ - 1 := by
      rw [show -(p + 1) = -p - 1 by ring, Int.ceil_sub_one]
    have h3 : Int.toNat ⌈-p⌉ = Int.toNat ⌈-(p + 1)⌉ + 1 := by omega
    rw [addOneLoop, h3, addOneAux, if_pos h]
    rfl
  · rw [if_neg (not_lt.mpr h), addOneLoop, addOneAux_of_nonneg h]

theorem subOneAux_of_le_one {p : ℚ} (h : p ≤ 1) : ∀ n, subOneAux n p = p
  | 0 => rfl
  | n + 1 => by simp [subOneAux, not_lt.mpr h]

/-- The `subOneLoop` satisfies the `while (p > 1) p -= 1` loop equation. -/
theorem subOneLoop_eq (p : ℚ) :
    subOneLoop p = if 1 < p then subOneLoop (p - 1) else p := by
  rcases lt_or_le 1 p with h | h
  · rw [if_pos h]
    have h1 : 2 ≤ ⌈p⌉ := by
      have h0 : (1 : ℤ) < ⌈p⌉ := by exact_mod_cast lt_of_lt_of_le h (Int.le_ceil p)
      omega
    have h2 : ⌈p - 1⌉ = ⌈p⌉ - 1 := Int.ceil_sub_one p
    have h3 : Int.toNat ⌈p⌉ = Int.toNat ⌈p - 1⌉ + 1 := by omega
    rw [subOneLoop, h3, subOneAux, if_pos h]
    rfl
  · rw [if_neg (not_lt.mpr h), subOneLoop, subOneAux_of_le_one h]

theorem addOneAux_nonneg {n : ℕ} {p : ℚ} (h : -(n : ℚ) ≤ p) :
    0 ≤ addOneAux n p := by
  induction n generalizing p with
  | zero => simpa [addOneAux] using h
  | succ n ih =>
    rw [addOneAux]
    split
    · exact ih (by push_cast at h; linarith)
    · linarith [not_lt.mp (by assumption : ¬ p < 0)]

theorem addOneLoop_nonneg (p : ℚ) : 0 ≤ addOneLoop p := by
  refine addOneAux_nonneg ?_
  rcases le_or_lt 0 p with h | h
  · have h0 : (0 : ℚ) ≤ (Int.toNat ⌈-p⌉ : ℚ) := by positivity
    linarith
  · have h1 : (0 : ℤ) ≤ ⌈-p⌉ := Int.ceil_nonneg (by linarith)
    have h2 : ((Int.toNat ⌈-p⌉ : ℕ) : ℚ) = ((⌈-p⌉ : ℤ) : ℚ) := by
      exact_mod_cast Int.toNat_of_nonneg h1
    have h3 : -p ≤ (⌈-p⌉ : ℚ) := Int.le_ceil _
    rw [h2]
    linarith

theorem subOneAux_le_one {n : ℕ} {p : ℚ} (h : p - n ≤ 1) :
    subOneAux n p ≤ 1 := by
  induction n generalizing p with
  | zero => simpa [subOneAux] using h
  | succ n ih =>
    rw [subOneAux]
    split
    · exact ih (by push_cast at h; linarith)
    · exact not_lt.mp (by assumption)

theorem subOneAux_nonneg {n : ℕ} {p : ℚ} (h : 0 ≤ p) : 0 ≤ subOneAux n p := by
  induction n generalizing p with
  | zero => simpa [subOneAux]
  | succ n ih =>
    rw [subOneAux]
    split
    · exact ih (by linarith [(by assumption : 1 < p)])
    · exact h

theorem subOneLoop_le_one (p : ℚ) : subOneLoop p ≤ 1 := by
  refine subOneAux_le_one ?_
  rcases le_or_lt p 0 with h | h
  · have h0 : (0 : ℚ) ≤ (Int.toNat ⌈p⌉ : ℚ) := by positivity
    linarith
  · have h1 : (0 : ℤ) ≤ ⌈p⌉ := Int.ceil_nonneg h.le
    have h2 : ((Int.toNat ⌈p⌉ : ℕ) : ℚ) = ((⌈p⌉ : ℤ) : ℚ) := by
      exact_mod_cast Int.toNat_of_nonneg h1
    have h3 : p ≤ (⌈p⌉ : ℚ) := Int.le_ceil _
    rw [h2]
    linarith

/-- The wrap loop always lands in the closed interval `[0, 1]`. -/
theorem limitNormalisedPeriod_mem (p : ℚ) :
    0 ≤ limitNormalisedPeriod p ∧ limitNormalisedPeriod p ≤ 1 :=
  ⟨subOneAux_nonneg (addOneLoop_nonneg p), subOneLoop_le_one _⟩

/-! ## Parameter store invariant and claim C1 -/

theorem parameterStoreInv_init (oldSnap newSnap activeSnap : ParameterSnapshot)
    (flag : Bool) :
    ParameterStoreInv oldSnap newSnap (parameterStoreInit oldSnap activeSnap flag) := by
  refine ⟨?_, fun _ => rfl, ?_, ?_, ?_⟩
  · show 0 ≤ numParameterFields + 2
    omega
  · intro i hi
    have hi2 : (i : ℕ) + 1 < 0 := hi
    omega
  · intro h1 _
    have h12 : (1 : ℕ) ≤ 0 := h1
    omega
  · intro _
    left
    rfl

theorem parameterStoreInv_step {oldSnap newSnap : ParameterSnapshot}
    {s s2 : ParameterStoreState} (hInv : ParameterStoreInv oldSnap newSnap s)
    (h : ParameterStoreStep newSnap s s2) :
    ParameterStoreInv oldSnap newSnap s2 := by
  obtain ⟨h1, h2, h3, h4, h5⟩ := hInv
  cases h with
  | clearFlag h0 =>
    refine ⟨?_, ?_, ?_, ?_, ?_⟩
    · show 1 ≤ numParameterFields + 2
      omega
    · intro hc
      have hc2 : (1 : ℕ) = 0 := hc
      omega
    · intro i hi
      have hi2 : (i : ℕ) + 1 < 1 := hi
      omega
    · intro _ _
      rfl
    · intro hc
      have hc2 : false = true := hc
      exact Bool.noConfusion hc2
  | writeField i h0 =>
    have hiLt : (i : ℕ) < numParameterFields := i.isLt
    refine ⟨?_, ?_, ?_, ?_, ?_⟩
    · show s.producerPC + 1 ≤ numParameterFields + 2
      omega
    · intro hc
      have : s.producerPC + 1 = 0 := hc
      omega
    · intro j hj
      have hj2 : (j : ℕ) + 1 < s.producerPC + 1 := hj
      show Function.update s.pending i (newSnap i) j = newSnap j
      rcases eq_or_ne j i with rfl | hne
      · rw [Function.update_same]
      · rw [Function.update_noteq hne]
        refine h3 j ?_
        have : (j : ℕ) ≠ (i : ℕ) := fun hc => hne (Fin.ext hc)
        omega
    · intro hge hle
      have hle2 : s.producerPC + 1 ≤ numParameterFields + 1 := hle
      show s.pendingFlag = false
      exact h4 (by omega) (by omega)
    · intro hc
      have hc2 : s.pendingFlag = true := hc
      rcases h5 hc2 with h0c | h0c
      · omega
      · exact absurd (h0.symm.trans h0c) (by omega)
  | raiseFlag h0 =>
    refine ⟨?_, ?_, ?_, ?_, ?_⟩
    · show s.producerPC + 1 ≤ numParameterFields + 2
      omega
    · intro hc
      have : s.producerPC + 1 = 0 := hc
      omega
    · intro j hj
      refine h3 j ?_
      have := j.isLt
      omega
    · intro _ hle
      have : s.producerPC + 1 ≤ numParameterFields + 1 := hle
      omega
    · intro _
      right
      show s.producerPC + 1 = numParameterFields + 2
      omega
  | consume =>
    rw [parameterStoreConsume]
    split
    · refine ⟨h1, h2, h3, fun _ _ => rfl, ?_⟩
      intro hc
      have hc2 : false = true := hc
      exact Bool.noConfusion hc2
    · exact ⟨h1, h2, h3, h4, h5⟩

/-- C1.  Parameter adoption is atomic: for every interleaving of one
`SynthesiserSetParameters` publish (source-order producer statements) with
any number of consumer adoption steps, every adoption copies either the
complete previously published snapshot or the complete new one — never a
mixture — so each sample computation uses one internally consistent
snapshot. -/
theorem parameter_adoption_atomic (oldSnap newSnap activeSnap : ParameterSnapshot)
    (flag : Bool) (s : ParameterStoreState)
    (h : Relation.ReflTransGen (ParameterStoreStep newSnap)
      (parameterStoreInit oldSnap activeSnap flag) s) :
    (parameterStoreConsume s).active = s.active ∨
    (parameterStoreConsume s).active = oldSnap ∨
    (parameterStoreConsume s).active = newSnap := by
  have hInv : ParameterStoreInv oldSnap newSnap s := by
    induction h with
    | refl => exact parameterStoreInv_init oldSnap newSnap activeSnap flag
    | tail _ hstep ih => exact parameterStoreInv_step ih hstep
  by_cases hf : s.pendingFlag
  · rcases hInv.2.2.2.2 hf with h0 | h13
    · right; left
      have hpend := hInv.2.1 h0
      simp [parameterStoreConsume, hf, hpend]
    · right; right
      have hpend : s.pending = newSnap := by
        funext i
        refine hInv.2.2.1 i ?_
        have := i.isLt
        simp only [numParameterFields] at *
        omega
      simp [parameterStoreConsume, hf, hpend]
  · left
    simp [parameterStoreConsume, hf]

/-- Witness for C1 at a concrete store state: the state reached after a
complete publish of the all-2 snapshot over the all-0 one (flag cleared,
all 11 fields written in order, flag raised). -/
theorem parameter_adoption_atomic_witness :
    (parameterStoreConsume
        { pendingFlag := true
          pending :=
            Function.update (Function.update (Function.update (Function.update
              (Function.update (Function.update (Function.update (Function.update
                (Function.update (Function.update (Function.update
                  (fun _ => (0 : ℚ)) 0 2) 1 2) 2 2) 3 2) 4 2) 5 2) 6 2) 7 2)
                    8 2) 9 2) 10 2
          active := fun _ => (1 : ℚ)
          producerPC := 13 }).active =
      ({ pendingFlag := true
         pending :=
           Function.update (Function.update (Function.update (Function.update
             (Function.update (Function.update (Function.update (Function.update
               (Function.update (Function.update (Function.update
                 (fun _ => (0 : ℚ)) 0 2) 1 2) 2 2) 3 2) 4 2) 5 2) 6 2) 7 2)
                   8 2) 9 2) 10 2
         active := fun _ => (1 : ℚ)
         producerPC := 13 } : ParameterStoreState).active ∨
    (parameterStoreConsume
        { pendingFlag := true
          pending :=
            Function.update (Function.update (Function.update (Function.update
              (Function.update (Function.update (Function.update (Function.update
                (Function.update (Function.update (Function.update
                  (fun _ => (0 : ℚ)) 0 2) 1 2) 2 2) 3 2) 4 2) 5 2) 6 2) 7 2)
                    8 2) 9 2) 10 2
          active := fun _ => (1 : ℚ)
          producerPC := 13 }).active = (fun _ => (0 : ℚ)) ∨
    (parameterStoreConsume
        { pendingFlag := true
          pending :=
            Function.update (Function.update (Function.update (Function.update
              (Function.update (Function.update (Function.update (Function.update
                (Function.update (Function.update (Function.update
                  (fun _ => (0 : ℚ)) 0 2) 1 2) 2 2) 3 2) 4 2) 5 2) 6 2) 7 2)
                    8 2) 9 2) 10 2
          active := fun _ => (1 : ℚ)
          producerPC := 13 }).active = (fun _ => (2 : ℚ)) := by
  refine parameter_adoption_atomic (fun _ => 0) (fun _ => 2) (fun _ => 1) false _ ?_
  exact .tail (.tail (.tail (.tail (.tail (.tail (.tail (.tail (.tail (.tail (.tail
    (.tail (.tail .refl
      (.clearFlag _ rfl)) (.writeField _ 0 rfl)) (.writeField _ 1 rfl))
        (.writeField _ 2 rfl)) (.writeField _ 3 rfl)) (.writeField _ 4 rfl))
          (.writeField _ 5 rfl)) (.writeField _ 6 rfl)) (.writeField _ 7 rfl))
            (.writeField _ 8 rfl)) (.writeField _ 9 rfl)) (.writeField _ 10 rfl))
              (.raiseFlag _ rfl)

/-! ## Claim C2 -/

/-- C2.  `WaveformsOneBitNoise` has no guard for `frequency <= 0`: at zero
frequency the update-interval computation divides by zero (a non-finite
quotient reaching the `unsigned int` conversion) and at negative frequency
the quotient is outside the conversion's range, so the embedded computation
has no defined result — the code does not implement the claimed
"never update, hold prior output" behaviour. -/
theorem one_bit_noise_zero_frequency_has_no_defined_interval :
    noiseSamplesPerUpdate 0 sampleFrequency = Option.none ∧
    noiseSamplesPerUpdate (-1) sampleFrequency = Option.none ∧
    waveformsOneBitNoise 0 sampleFrequency initialNoiseState = Option.none := by
  with_unfolding_all decide

/-! ## Claim C3 -/

/-- C3 counterexample: at `MAXIMUM_FREQUENCY = 20000`, `frequency = 15000`
(harmonic 1) and 16 tables per family, the code's unsigned arithmetic wraps
`(harmonic - 1) / 2 - 1` around to `2^32 - 1` and the clamp selects table
15, not the claimed table 0. -/
theorem bandwidth_limited_index_claim_false : ¬ BandwidthIndexSignedClaim := by
  intro h
  have h1 := h 20 20000 15000 16 16 (by norm_num) (by norm_num) (by norm_num)
    (by norm_num) (by norm_num)
  exact absurd h1.1 (by with_unfolding_all decide)

/-- C3 amended: for `harmonic ≥ 3` the triangle/square index equals the
clamped signed formula `(harmonic−1)/2 − 1`, and for `harmonic ≥ 2` the
sawtooth/pulse index equals the clamped signed `harmonic − 2`; but for
`harmonic ≤ 2` (triangle/square) and `harmonic = 1` (sawtooth/pulse) the
`unsigned int` subtraction wraps modulo `2^32` and the clamp selects
`tableCount − 1`, the highest index, not 0. -/
theorem bandwidth_limited_index_unsigned (harmonic count : ℕ)
    (hcount1 : 1 ≤ count) (hcount2 : count ≤ 2 ^ 32)
    (hh1 : 1 ≤ harmonic) (hh2 : harmonic < 2 ^ 32) :
    (3 ≤ harmonic →
      triangleWaveformIndex harmonic count =
        (clampZ (((harmonic : ℤ) - 1) / 2 - 1) 0 ((count : ℤ) - 1)).toNat) ∧
    (harmonic ≤ 2 → triangleWaveformIndex harmonic count = count - 1) ∧
    (2 ≤ harmonic →
      sawtoothWaveformIndex harmonic count =
        (clampZ ((harmonic : ℤ) - 2) 0 ((count : ℤ) - 1)).toNat) ∧
    (harmonic = 1 → sawtoothWaveformIndex harmonic count = count - 1) := by
  refine ⟨?_, ?_, ?_, ?_⟩
  · intro h3
    simp only [triangleWaveformIndex, usub32, clampN, clampZ]
    omega
  · intro h2
    simp only [triangleWaveformIndex, usub32, clampN]
    omega
  · intro h2
    simp only [sawtoothWaveformIndex, usub32, clampN, clampZ]
    omega
  · intro h1
    simp only [sawtoothWaveformIndex, usub32, clampN]
    omega

/-- Witness for the amended C3 at harmonic 7 and 2 with 16 tables. -/
theorem bandwidth_limited_index_unsigned_witness :
    ((1 ≤ 16 ∧ 16 ≤ 2 ^ 32 ∧ 1 ≤ 7 ∧ 7 < 2 ^ 32) ∧
      (3 ≤ 7 →
        triangleWaveformIndex 7 16 =
          (clampZ (((7 : ℤ) - 1) / 2 - 1) 0 ((16 : ℤ) - 1)).toNat)) ∧
    (2 ≤ 2 → triangleWaveformIndex 2 16 = 16 - 1) :=
  ⟨⟨by norm_num,
    (bandwidth_limited_index_unsigned 7 16 (by norm_num) (by norm_num) (by norm_num)
      (by norm_num)).1⟩,
   (bandwidth_limited_index_unsigned 2 16 (by norm_num) (by norm_num) (by norm_num)
      (by norm_num)).2.1⟩

/-! ## Claim C4 -/

/-- C4 counterexample: `WaveformsLimitNormalisedPeriod(2.0)` returns exactly
`1.0`, which is not in the claimed half-open interval `[0, 1)` (the loop
guard is `> 1.0f`, not `>= 1.0f`). -/
theorem limit_normalised_period_claim_false : ¬ LimitReturnsHalfOpen := by
  intro h
  exact absurd (h 2).2 (by with_unfolding_all decide)

theorem limitNormalisedPeriod_nonneg (p : ℚ) : 0 ≤ limitNormalisedPeriod p :=
  (limitNormalisedPeriod_mem p).1

theorem limitNormalisedPeriod_le_one (p : ℚ) : limitNormalisedPeriod p ≤ 1 :=
  (limitNormalisedPeriod_mem p).2

theorem audioUpdateCore_phase_bounds {env : EnvConsts}
    {params : SynthesiserParameters} {df0 : CascadeFilter} {s s2 : EngineState}
    (h : audioUpdateCore env params df0 s = some s2) :
    0 ≤ s2.lfoPeriodClock ∧ s2.lfoPeriodClock ≤ 1 ∧
    0 ≤ s2.vcoPeriodClock ∧ s2.vcoPeriodClock ≤ 1 := by
  rw [audioUpdateCore] at h
  split at h
  · exact absurd h (by simp)
  · dsimp only at h
    rw [Option.map_eq_some'] at h
    obtain ⟨ds, hds, h⟩ := h
    subst h
    exact ⟨limitNormalisedPeriod_nonneg _, limitNormalisedPeriod_le_one _,
      limitNormalisedPeriod_nonneg _, limitNormalisedPeriod_le_one _⟩

theorem audioUpdate_phase_bounds {env : EnvConsts} {s s2 : EngineState}
    (h : audioUpdate env s = some s2) :
    0 ≤ s2.lfoPeriodClock ∧ s2.lfoPeriodClock ≤ 1 ∧
    0 ≤ s2.vcoPeriodClock ∧ s2.vcoPeriodClock ≤ 1 := by
  rw [audioUpdate] at h
  split at h <;> exact audioUpdateCore_phase_bounds h

/-- C4 amended: the wrap always lands in the closed interval `[0, 1]` (the
value 1 is attained, e.g. at input 2), and consequently, after every
per-sample advance-and-wrap step of `AudioUpdate`, both oscillator phases
lie in `[0, 1]`. -/
theorem limit_normalised_period_closed_range :
    (∀ p : ℚ, 0 ≤ limitNormalisedPeriod p ∧ limitNormalisedPeriod p ≤ 1) ∧
    ∀ (env : EnvConsts) (ins : ℕ → ExternalInputs) (n : ℕ) (s : EngineState),
      engineStates env ins n = some s →
      0 ≤ s.lfoPeriodClock ∧ s.lfoPeriodClock ≤ 1 ∧
      0 ≤ s.vcoPeriodClock ∧ s.vcoPeriodClock ≤ 1 := by
  refine ⟨limitNormalisedPeriod_mem, ?_⟩
  intro env ins n s h
  cases n with
  | zero =>
    injection h with h
    subst h
    refine ⟨le_refl 0, ?_, le_refl 0, ?_⟩ <;> norm_num [initialEngineState]
  | succ n =>
    rw [engineStates] at h
    cases he : engineStates env ins n with
    | none =>
      rw [he] at h
      exact absurd h (by simp)
    | some s1 =>
      rw [he] at h
      simp only [Option.some_bind] at h
      exact audioUpdate_phase_bounds h

/-- Witness for the amended C4: input `3/2` and the initial engine state. -/
theorem limit_normalised_period_closed_range_witness :
    (0 ≤ limitNormalisedPeriod (3/2) ∧ limitNormalisedPeriod (3/2) ≤ 1) ∧
    (0 ≤ (initialEngineState envWitness).lfoPeriodClock ∧
      (initialEngineState envWitness).lfoPeriodClock ≤ 1 ∧
      0 ≤ (initialEngineState envWitness).vcoPeriodClock ∧
      (initialEngineState envWitness).vcoPeriodClock ≤ 1) :=
  ⟨limit_normalised_period_closed_range.1 (3/2),
   limit_normalised_period_closed_range.2 envWitness insQuiet 0
     (initialEngineState envWitness) rfl⟩

/-! ## Claim C5 -/

/-- C5 counterexample: with `lfoFrequency = 1` and pre-advance phase
`0.99 - 1/192000` (half a sample step below the claimed threshold `0.99`),
the code closes the gate — it tests the post-advance clock — although the
pre-advance phase is not within the claimed lead window. -/
theorem gate_close_pre_advance_claim_false : ¬ GateClosePreAdvanceClaim := by
  intro h
  have h1 := (h 1 (190079/192000)).mp (by with_unfolding_all decide)
  have h2 : ¬ ((1 : ℚ) - preemptiveGatePeriod * 1 ≤ 190079/192000) := by
    rw [preemptiveGatePeriod]
    norm_num
  exact h2 h1

/-- C5 amended: the step closes the gate exactly when the post-advance
(pre-wrap) LFO clock is within the lead time, equivalently when the
pre-advance phase `p` satisfies
`p ≥ 1 − 0.01 × lfoFrequency − lfoFrequency / sampleRate` — one sample step
earlier than the claimed threshold. -/
theorem gate_close_post_advance (gateControl : Bool) (f p : ℚ) :
    lfoGateCloseCondition gateControl f (p + (1 / sampleFrequency) * f) =
      (gateControl &&
        decide (1 - preemptiveGatePeriod * f - f / sampleFrequency ≤ p)) := by
  rw [lfoGateCloseCondition]
  congr 1
  rw [decide_eq_decide]
  rw [sampleFrequency, preemptiveGatePeriod]
  constructor <;> intro h <;> linarith

/-! ## Claim C7 -/

/-- C7 counterexample: at `frequency = sampleRate/2` the update interval is
2 and the counter starts at 0, so the first two calls both return the held
initial value `1.0` — consecutive outputs are equal, not alternating. -/
theorem noise_toggle_claim_false : ¬ NoiseTogglesEveryCall := by
  intro h
  exact h 0 (by with_unfolding_all decide)

theorem noiseInterval_nyquist :
    noiseSamplesPerUpdate (sampleFrequency / 2) sampleFrequency = some 2 := by
  with_unfolding_all decide

theorem noiseRun_nyquist_counter (n : ℕ) :
    ∃ s : NoiseState, noiseRun (sampleFrequency / 2) n = some (s, s.returnValue) ∧
      s.sampleCounter = (n + 1) % 3 := by
  induction n with
  | zero =>
    refine ⟨⟨1, 1, 0xACE1⟩, ?_, by decide⟩
    rw [noiseRun, waveformsOneBitNoise, noiseInterval_nyquist]
    dsimp only [initialNoiseState]
    rw [if_neg (by omega)]
  | succ n ih =>
    obtain ⟨s, hs, hc⟩ := ih
    rw [noiseRun, hs, Option.some_bind, waveformsOneBitNoise, noiseInterval_nyquist]
    dsimp only
    rcases Nat.lt_or_ge s.sampleCounter 2 with hlt | hge
    · rw [if_neg (by omega)]
      refine ⟨⟨s.returnValue, s.sampleCounter + 1, s.lfsr⟩, rfl, ?_⟩
      show s.sampleCounter + 1 = (n + 1 + 1) % 3
      omega
    · rw [if_pos (by omega)]
      have hc2 : (n + 1) % 3 = 2 := by omega
      rcases Nat.mod_two_eq_zero_or_one s.lfsr with hb | hb
      · refine ⟨⟨-1, 0, s.lfsr / 2⟩, ?_, ?_⟩
        · simp [hb]
        · show (0 : ℕ) = (n + 1 + 1) % 3
          omega
      · refine ⟨⟨1, 0, s.lfsr / 2 ^^^ 0xB400⟩, ?_, ?_⟩
        · simp [hb]
        · show (0 : ℕ) = (n + 1 + 1) % 3
          omega

/-- C7 amended: at `frequency = sampleRate/2` the update interval computes
to `floor(96000/48000) = 2`, and the output is held (unchanged from the
previous call) on every call whose zero-based index `n + 1` is not a
multiple of 3 — the post-increment comparison updates the output only on
every third call, and an updating call emits the next LFSR bit, which need
not differ from the held value. -/
theorem noise_nyquist_holds_two_of_three (n : ℕ) (h : (n + 1) % 3 ≠ 2) :
    noiseSamplesPerUpdate (sampleFrequency / 2) sampleFrequency = some 2 ∧
    noiseRunOutput (sampleFrequency / 2) (n + 1) = noiseRunOutput (sampleFrequency / 2) n := by
  refine ⟨noiseInterval_nyquist, ?_⟩
  obtain ⟨s, hs, hc⟩ := noiseRun_nyquist_counter n
  rw [noiseRunOutput, noiseRunOutput, noiseRun, hs, Option.some_bind,
    waveformsOneBitNoise, noiseInterval_nyquist]
  dsimp only
  rw [if_neg (by omega)]
  simp

/-- Witness for the amended C7 at the first pair of calls. -/
theorem noise_nyquist_holds_two_of_three_witness :
    ((0 + 1) % 3 ≠ 2) ∧
    (noiseSamplesPerUpdate (sampleFrequency / 2) sampleFrequency = some 2 ∧
      noiseRunOutput (sampleFrequency / 2) (0 + 1) = noiseRunOutput (sampleFrequency / 2) 0) :=
  ⟨by decide, noise_nyquist_holds_two_of_three 0 (by decide)⟩

/-! ## Claim C8 -/

/-- C8 counterexample: at a one-million-second delay request the scaled
delay time `10^6 * 96000` exceeds the `int` range, so the `(int)`
conversion at `Synthesiser.c` line 214 — which happens before the clamp —
has no defined result: the read-index computation is not defined for
arbitrarily large delay times. -/
theorem delay_read_index_claim_false : ¬ DelayReadDefinedInBounds := by
  intro h
  obtain ⟨ri, hri, _⟩ := h 0 (10 ^ 6) (by decide)
  rw [show delayReadIndex 0 (10 ^ 6) = Option.none from by
    with_unfolding_all decide] at hri
  exact Option.noConfusion hri

/-- C8 amended.  Whenever the `int` conversion of the scaled (smoothed)
delay time has a defined result — which includes every negative or zero
delay time and every delay time up to about 22369 seconds, the conversion
preceding the clamp being undefined beyond the `int` range — the
delay-in-samples value is clamped into `[0, DELAY_BUFFER_SIZE]` and, for
every write cursor in range, the read index is defined and lies in
`[0, DELAY_BUFFER_SIZE)`, so the buffer access is in bounds;
`ReadFromDelayBuffer` reads at exactly this index computed from the
smoothed delay time. -/
theorem delay_read_index_always_valid (index : ℕ) (t : ℚ)
    (h : index < delayBufferSize) :
    (∀ d : ℤ, castToInt (t * sampleFrequency) = some d →
      0 ≤ clampZ d 0 (delayBufferSize : ℤ) ∧
      clampZ d 0 (delayBufferSize : ℤ) ≤ (delayBufferSize : ℤ) ∧
      delayReadIndex index t ≠ Option.none) ∧
    (∀ ri : ℤ, delayReadIndex index t = some ri →
      0 ≤ ri ∧ ri < (delayBufferSize : ℤ)) ∧
    ∀ (f : FirstOrderFilter) (buffer : ℕ → ℚ) (rr : FirstOrderFilter × ℚ),
      readFromDelayBuffer f buffer index t = some rr →
      ∃ ri : ℤ, delayReadIndex index (firstOrderFilterUpdate f t).2 = some ri ∧
        rr.2 = buffer ri.toNat := by
  refine ⟨?_, ?_, ?_⟩
  · intro d hd
    refine ⟨?_, min_le_right _ _, ?_⟩
    · simp only [clampZ, delayBufferSize]
      omega
    · rw [delayReadIndex, hd]
      simp
  · intro ri hri
    rw [delayReadIndex] at hri
    cases hc : castToInt (t * sampleFrequency) with
    | none =>
      rw [hc] at hri
      exact absurd hri (by simp)
    | some d =>
      rw [hc] at hri
      simp only [Option.map] at hri
      injection hri with hri
      subst hri
      simp only [clampZ, delayBufferSize] at *
      constructor
      · split <;> omega
      · split <;> omega
  · intro f buffer rr hrr
    simp only [readFromDelayBuffer] at hrr
    cases hri : delayReadIndex index (firstOrderFilterUpdate f t).2 with
    | none =>
      rw [hri] at hrr
      exact absurd hrr (by simp)
    | some ri =>
      rw [hri] at hrr
      simp only [Option.map] at hrr
      injection hrr with hrr
      exact ⟨ri, rfl, by rw [← hrr]⟩

/-- Witness for the amended C8 at cursor 0 and a ten-second delay request
(which clamps to the full buffer capacity). -/
theorem delay_read_index_always_valid_witness :
    ((0 : ℕ) < delayBufferSize) ∧
    ((∀ d : ℤ, castToInt ((10 : ℚ) * sampleFrequency) = some d →
      0 ≤ clampZ d 0 (delayBufferSize : ℤ) ∧
      clampZ d 0 (delayBufferSize : ℤ) ≤ (delayBufferSize : ℤ) ∧
      delayReadIndex 0 10 ≠ Option.none) ∧
    (∀ ri : ℤ, delayReadIndex 0 10 = some ri →
      0 ≤ ri ∧ ri < (delayBufferSize : ℤ)) ∧
    ∀ (f : FirstOrderFilter) (buffer : ℕ → ℚ) (rr : FirstOrderFilter × ℚ),
      readFromDelayBuffer f buffer 0 10 = some rr →
      ∃ ri : ℤ, delayReadIndex 0 (firstOrderFilterUpdate f 10).2 = some ri ∧
        rr.2 = buffer ri.toNat) :=
  ⟨by decide, delay_read_index_always_valid 0 10 (by decide)⟩

/-! ## Claim C10 -/

/-- C10 counterexample: at `sample = 1/2` the stored code is the truncated
`4194303`, not the exact product `4194303.5`. -/
theorem dac_code_equals_product_false : ¬ DacCodeEqualsScaledClamp := by
  intro h
  exact absurd (h (1/2)) (by with_unfolding_all decide)

/-- C10 amended: `DacWriteBuffer` stores the truncation toward zero of
`clamp(sample, -1, 1) × 0x7FFFFF`, which always lies within the signed
24-bit range `[-0x7FFFFF, 0x7FFFFF]`, for every input sample of either
sign, including values outside `[-1, 1]`. -/
theorem dac_code_saturates (sample : ℚ) :
    dacWriteBuffer sample = ratTrunc (clampQ sample (-1) 1 * 0x7FFFFF) ∧
    -0x7FFFFF ≤ dacWriteBuffer sample ∧ dacWriteBuffer sample ≤ 0x7FFFFF := by
  have hc : |clampQ sample (-1) 1| ≤ 1 := abs_clampQ_le (by norm_num)
  have hp : |clampQ sample (-1) 1 * (0x7FFFFF : ℚ)| ≤ 0x7FFFFF := by
    rw [abs_mul]
    have h8 : |(0x7FFFFF : ℚ)| = 0x7FFFFF := by norm_num
    rw [h8]
    nlinarith [abs_nonneg (clampQ sample (-1) 1)]
  have ht := abs_ratTrunc_le hp
  rw [abs_le] at ht
  refine ⟨rfl, ?_, ?_⟩
  · rw [dacWriteBuffer]
    exact_mod_cast ht.1
  · rw [dacWriteBuffer]
    exact_mod_cast ht.2

/-! ## Claim C9 -/

theorem applyExternalInputs_output (inputs : ExternalInputs) (s : EngineState) :
    (applyExternalInputs inputs s).output = s.output := by
  rw [applyExternalInputs]
  rcases inputs with ⟨pub, tr, sg⟩
  cases pub <;> cases sg <;> cases tr <;> rfl

/-- C9.  One-sample double buffering: the sample handed to `DacWriteBuffer`
as the very first action of invocation `n + 1` is exactly the `output`
value the state carries after invocation `n` — the sample that invocation
computed and stored, unaffected by invocation `n + 1`'s own computation and
by any external calls in between — and the very first invocation hands
over `0.0`. -/
theorem dac_write_is_previous_output (env : EnvConsts) (ins : ℕ → ExternalInputs) :
    engineWrittenSample env ins 0 = some 0 ∧
    ∀ n : ℕ, engineWrittenSample env ins (n + 1) =
      (engineStates env ins (n + 1)).map (fun s => s.output) := by
  constructor
  · rw [engineWrittenSample]
    show (some (initialEngineState env)).map _ = _
    simp [applyExternalInputs_output, initialEngineState]
  · intro n
    rw [engineWrittenSample]
    cases h : engineStates env ins (n + 1) with
    | none => rfl
    | some s => simp [applyExternalInputs_output]

/-! ## Output bound machinery (claim C6) -/

theorem ceil_eq_floor_add_one_of_ne {q : ℚ} (h : ((⌊q⌋ : ℤ) : ℚ) ≠ ((⌈q⌉ : ℤ) : ℚ)) :
    ((⌈q⌉ : ℤ) : ℚ) = ((⌊q⌋ : ℤ) : ℚ) + 1 := by
  have h1 : ⌊q⌋ ≤ ⌈q⌉ := Int.floor_le_ceil q
  have h2 : ⌈q⌉ ≤ ⌊q⌋ + 1 := Int.ceil_le_floor_add_one q
  have h3 : ⌊q⌋ ≠ ⌈q⌉ := fun hc => h (by exact_mod_cast hc)
  have h4 : ⌈q⌉ = ⌊q⌋ + 1 := by omega
  exact_mod_cast h4

theorem interpolateWaveformTable_bound {tab : ℕ → ℚ} {len : ℕ}
    (htab : ∀ i, |tab i| ≤ 1) (p : ℚ) :
    |interpolateWaveformTable tab len p| ≤ 1 := by
  rw [interpolateWaveformTable]
  split
  · exact htab _
  · rename_i hne
    rw [mapQ]
    set q := p * ((len - 1 : ℕ) : ℚ) with hq
    have hceil : ((⌈q⌉ : ℤ) : ℚ) = ((⌊q⌋ : ℤ) : ℚ) + 1 := ceil_eq_floor_add_one_of_ne hne
    rw [hceil]
    have hden : ((⌊q⌋ : ℤ) : ℚ) + 1 - ((⌊q⌋ : ℤ) : ℚ) = 1 := by ring
    rw [hden, div_one]
    have ht0 : 0 ≤ q - ((⌊q⌋ : ℤ) : ℚ) := by
      have := Int.floor_le q
      linarith
    have ht1 : q - ((⌊q⌋ : ℤ) : ℚ) ≤ 1 := by
      have := Int.le_ceil q
      rw [hceil] at this
      linarith
    have hy1 := abs_le.mp (htab (ratTrunc ((⌊q⌋ : ℤ) : ℚ)).toNat)
    have hy2 := abs_le.mp (htab (ratTrunc (((⌊q⌋ : ℤ) : ℚ) + 1)).toNat)
    rw [abs_le]
    constructor
    · nlinarith [hy1.1, hy1.2, hy2.1, hy2.2]
    · nlinarith [hy1.1, hy1.2, hy2.1, hy2.2]

theorem waveformsSine_bound {env : EnvConsts} (hsine : ∀ i, |env.sineTable i| ≤ 1)
    (p : ℚ) : |waveformsSine env p| ≤ 1 :=
  interpolateWaveformTable_bound hsine p

theorem waveformsBandwidthLimitedTriangle_bound {env : EnvConsts}
    (hsine : ∀ i, |env.sineTable i| ≤ 1) (htri : ∀ t i, |env.triangleTable t i| ≤ 1)
    {p : ℚ} (hp0 : 0 ≤ p) (hp1 : p ≤ 1) (f : ℚ) :
    |waveformsBandwidthLimitedTriangle env p f| ≤ 1 := by
  rw [waveformsBandwidthLimitedTriangle]
  split
  · split
    · rename_i hhalf
      rw [abs_le]
      constructor <;> linarith
    · rename_i hhalf
      rw [not_lt] at hhalf
      rw [abs_le]
      constructor <;> linarith
  · split
    · exact interpolateWaveformTable_bound hsine p
    · exact interpolateWaveformTable_bound (htri _) p

theorem waveformsBandwidthLimitedSawtooth_bound {env : EnvConsts}
    (hsine : ∀ i, |env.sineTable i| ≤ 1) (hsaw : ∀ t i, |env.sawtoothTable t i| ≤ 1)
    {p : ℚ} (hp0 : 0 ≤ p) (hp1 : p ≤ 1) (f : ℚ) :
    |waveformsBandwidthLimitedSawtooth env p f| ≤ 1 := by
  rw [waveformsBandwidthLimitedSawtooth]
  split
  · rw [abs_le]
    constructor <;> linarith
  · split
    · exact interpolateWaveformTable_bound hsine p
    · exact interpolateWaveformTable_bound (hsaw _) p

theorem waveformsBandwidthLimitedSquare_bound {env : EnvConsts}
    (hsine : ∀ i, |env.sineTable i| ≤ 1) (hsq : ∀ t i, |env.squareTable t i| ≤ 1)
    (p f : ℚ) :
    |waveformsBandwidthLimitedSquare env p f| ≤ 1 := by
  rw [waveformsBandwidthLimitedSquare]
  split
  · split <;> rw [abs_le] <;> constructor <;> norm_num
  · split
    · exact interpolateWaveformTable_bound hsine p
    · exact interpolateWaveformTable_bound (hsq _) p

theorem waveformsBandwidthLimitedPulse_bound {env : EnvConsts}
    (hsine : ∀ i, |env.sineTable i| ≤ 1) (hpul : ∀ t i, |env.pulseTable t i| ≤ 1)
    (p f : ℚ) :
    |waveformsBandwidthLimitedPulse env p f| ≤ 1 := by
  rw [waveformsBandwidthLimitedPulse]
  split
  · split
    · rw [abs_le]
      constructor <;> norm_num
    · split <;> rw [abs_le] <;> constructor <;> norm_num
  · split
    · exact interpolateWaveformTable_bound hsine p
    · exact interpolateWaveformTable_bound (hpul _) p

theorem waveformsOneBitNoise_bound {f fs : ℚ} {s : NoiseState} {r : NoiseState × ℚ}
    (hs : |s.returnValue| ≤ 1) (h : waveformsOneBitNoise f fs s = some r) :
    |r.1.returnValue| ≤ 1 ∧ r.2 = r.1.returnValue := by
  rw [waveformsOneBitNoise] at h
  cases hspu : noiseSamplesPerUpdate f fs with
  | none =>
    rw [hspu] at h
    exact absurd h (by simp)
  | some spu =>
    rw [hspu] at h
    dsimp only at h
    split at h
    · injection h with h
      subst h
      constructor
      · dsimp only
        split <;> norm_num
      · rfl
    · injection h with h
      subst h
      exact ⟨hs, rfl⟩

theorem vcoWaveformValue_bound {env : EnvConsts} {params : SynthesiserParameters}
    {phase freq : ℚ} {noise : NoiseState} {r : ℚ × NoiseState}
    (hsine : ∀ i, |env.sineTable i| ≤ 1)
    (htri : ∀ t i, |env.triangleTable t i| ≤ 1)
    (hsaw : ∀ t i, |env.sawtoothTable t i| ≤ 1)
    (hsq : ∀ t i, |env.squareTable t i| ≤ 1)
    (hpul : ∀ t i, |env.pulseTable t i| ≤ 1)
    (hp0 : 0 ≤ phase) (hp1 : phase ≤ 1) (hn : |noise.returnValue| ≤ 1)
    (h : vcoWaveformValue env params phase freq noise = some r) :
    |r.1| ≤ 1 ∧ |r.2.returnValue| ≤ 1 := by
  rw [vcoWaveformValue] at h
  cases hw : params.vcoWaveform <;> rw [hw] at h <;> dsimp only at h
  case sine =>
    injection h with h
    subst h
    exact ⟨waveformsSine_bound hsine phase, hn⟩
  case triangle =>
    injection h with h
    subst h
    exact ⟨waveformsBandwidthLimitedTriangle_bound hsine htri hp0 hp1 freq, hn⟩
  case sawtooth =>
    injection h with h
    subst h
    exact ⟨waveformsBandwidthLimitedSawtooth_bound hsine hsaw hp0 hp1 freq, hn⟩
  case square =>
    injection h with h
    subst h
    exact ⟨waveformsBandwidthLimitedSquare_bound hsine hsq phase freq, hn⟩
  case pulse =>
    injection h with h
    subst h
    exact ⟨waveformsBandwidthLimitedPulse_bound hsine hpul phase freq, hn⟩
  case oneBitNoise =>
    cases hinner : waveformsOneBitNoise freq sampleFrequency noise with
    | none =>
      rw [hinner] at h
      exact absurd h (by simp)
    | some r2 =>
      rw [hinner] at h
      simp only [Option.map] at h
      injection h with h
      subst h
      obtain ⟨hb, hv⟩ := waveformsOneBitNoise_bound hn hinner
      exact ⟨by rw [show (r2.2, r2.1).1 = r2.2 from rfl, hv]; exact hb, hb⟩

theorem firstOrderFilterUpdate_lowpass_bound {f : FirstOrderFilter} {x : ℚ}
    (hhp : f.isHighPass = false) (hk0 : 0 ≤ f.coefficient) (hk1 : f.coefficient ≤ 1)
    (hy0 : 0 ≤ f.previousOutput) (hy1 : f.previousOutput ≤ 1)
    (hx0 : 0 ≤ x) (hx1 : x ≤ 1) :
    0 ≤ (firstOrderFilterUpdate f x).2 ∧ (firstOrderFilterUpdate f x).2 ≤ 1 := by
  rw [firstOrderFilterUpdate]
  dsimp only
  rw [hhp]
  simp only [Bool.false_eq_true, if_false]
  constructor <;> nlinarith

theorem writeToDelayBuffer_same (buffer : ℕ → ℚ) (index : ℕ) (sample : ℚ) :
    writeToDelayBuffer buffer index sample index = sample :=
  Function.update_same _ _ _

theorem writeToDelayBuffer_bound {buffer : ℕ → ℚ} {index : ℕ} {sample b : ℚ}
    (hbuf : ∀ i, |buffer i| ≤ b) (hsample : |sample| ≤ b) :
    ∀ i, |writeToDelayBuffer buffer index sample i| ≤ b := by
  intro i
  rw [writeToDelayBuffer, Function.update_apply]
  split
  · exact hsample
  · exact hbuf i

theorem mixToDelayBuffer_bound {buffer : ℕ → ℚ} {index : ℕ} {sample : ℚ}
    (hidx : |buffer index| ≤ 1/4) (hbuf : ∀ i, |buffer i| ≤ 5/4) :
    ∀ i, |mixToDelayBuffer buffer index sample i| ≤ 5/4 := by
  intro i
  rw [mixToDelayBuffer, Function.update_apply]
  split
  · have hcl : |clampQ sample (-1) 1| ≤ 1 := abs_clampQ_le (by norm_num)
    calc |buffer index + clampQ sample (-1) 1| ≤
        |buffer index| + |clampQ sample (-1) 1| := abs_add _ _
    _ ≤ 5/4 := by linarith
  · exact hbuf i

theorem readFromDelayBuffer_some {f : FirstOrderFilter} {buffer : ℕ → ℚ}
    {index : ℕ} {t : ℚ} {rr : FirstOrderFilter × ℚ}
    (h : readFromDelayBuffer f buffer index t = some rr) :
    ∃ ri : ℤ, delayReadIndex index (firstOrderFilterUpdate f t).2 = some ri ∧
      rr = ((firstOrderFilterUpdate f t).1, buffer ri.toNat) := by
  simp only [readFromDelayBuffer] at h
  cases hri : delayReadIndex index (firstOrderFilterUpdate f t).2 with
  | none =>
    rw [hri] at h
    exact absurd h (by simp)
  | some ri =>
    rw [hri] at h
    simp only [Option.map] at h
    injection h with h
    exact ⟨ri, rfl, h.symm⟩

theorem gateSection_bound {f : FirstOrderFilter} {v : ℚ} (gate : Bool)
    (hhp : f.isHighPass = false) (hk0 : 0 ≤ f.coefficient) (hk1 : f.coefficient ≤ 1)
    (hy0 : 0 ≤ f.previousOutput) (hy1 : f.previousOutput ≤ 1) (hv : |v| ≤ 1) :
    (gateSection f gate v).1.isHighPass = f.isHighPass ∧
    (gateSection f gate v).1.coefficient = f.coefficient ∧
    0 ≤ (gateSection f gate v).1.previousOutput ∧
    (gateSection f gate v).1.previousOutput ≤ 1 ∧
    |(gateSection f gate v).2| ≤ 1/4 := by
  have hx0 : 0 ≤ (if gate then (1 : ℚ) else 0) := by cases gate <;> norm_num
  have hx1 : (if gate then (1 : ℚ) else 0) ≤ 1 := by cases gate <;> norm_num
  have hb := firstOrderFilterUpdate_lowpass_bound hhp hk0 hk1 hy0 hy1 hx0 hx1
  refine ⟨rfl, rfl, hb.1, hb.2, ?_⟩
  show |v * (firstOrderFilterUpdate f (if gate then 1 else 0)).2 * (1/4)| ≤ 1/4
  rw [abs_mul, abs_mul, abs_of_nonneg hb.1]
  have h4 : |(1/4 : ℚ)| = 1/4 := by norm_num
  rw [h4]
  nlinarith [abs_nonneg v, hb.2]

theorem delaySection_bound {params : SynthesiserParameters} {dtf : FirstOrderFilter}
    {df0 : CascadeFilter} {buffer : ℕ → ℚ} {index : ℕ} {output2 : ℚ}
    (hfb0 : 0 ≤ params.delayFeedback) (hfb1 : params.delayFeedback ≤ 1)
    (hft : params.delayFilterType = DelayFilterType.none)
    (hbuf : ∀ i, |buffer i| ≤ 5/4)
    (r : (ℕ → ℚ) × FirstOrderFilter × CascadeFilter × ℕ × ℚ)
    (hr : delaySection params dtf df0 buffer index output2 = some r)
    (hout : |output2| ≤ 1/4) :
    (∀ i, |r.1 i| ≤ 5/4) ∧ |r.2.2.2.2| ≤ 5/4 := by
  have hbuf1 : ∀ i, |writeToDelayBuffer buffer index output2 i| ≤ 5/4 :=
    writeToDelayBuffer_bound hbuf (le_trans hout (by norm_num))
  simp only [delaySection] at hr
  cases hread : readFromDelayBuffer dtf (writeToDelayBuffer buffer index output2)
      index params.delayTime with
  | none =>
    rw [hread] at hr
    exact absurd hr (by simp)
  | some rr =>
    obtain ⟨ri, hri, hrr⟩ := readFromDelayBuffer_some hread
    have hrr2 : |rr.2| ≤ 5/4 := by
      rw [hrr]
      exact hbuf1 _
    rw [hread] at hr
    simp only [Option.map] at hr
    injection hr with hr
    subst hr
    refine ⟨?_, ?_⟩
    · dsimp only
      rw [hft, if_neg (fun hc => hc rfl)]
      dsimp only
      refine mixToDelayBuffer_bound ?_ hbuf1
      rw [writeToDelayBuffer_same]
      exact hout
    · dsimp only
      rw [hft, if_neg (fun hc => hc rfl)]
      dsimp only
      rw [abs_mul, abs_of_nonneg hfb0]
      nlinarith [abs_nonneg rr.2, hrr2]

theorem dry_plus_feedback_bound {params : SynthesiserParameters}
    {dtf : FirstOrderFilter} {df0 : CascadeFilter} {buffer : ℕ → ℚ} {index : ℕ}
    {f : FirstOrderFilter} {v : ℚ} (gate : Bool)
    (hhp : f.isHighPass = false) (hk0 : 0 ≤ f.coefficient) (hk1 : f.coefficient ≤ 1)
    (hy0 : 0 ≤ f.previousOutput) (hy1 : f.previousOutput ≤ 1) (hv : |v| ≤ 1)
    (hfb0 : 0 ≤ params.delayFeedback) (hfb1 : params.delayFeedback ≤ 1)
    (hft : params.delayFilterType = DelayFilterType.none)
    (hbuf : ∀ i, |buffer i| ≤ 5/4)
    (r : (ℕ → ℚ) × FirstOrderFilter × CascadeFilter × ℕ × ℚ)
    (hr : delaySection params dtf df0 buffer index (gateSection f gate v).2 = some r) :
    -(3/2) ≤ (gateSection f gate v).2 + r.2.2.2.2 ∧
      (gateSection f gate v).2 + r.2.2.2.2 ≤ 3/2 := by
  have hgs := gateSection_bound gate hhp hk0 hk1 hy0 hy1 hv
  have hds := delaySection_bound hfb0 hfb1 hft hbuf r hr hgs.2.2.2.2
  have h1 := abs_le.mp hgs.2.2.2.2
  have h2 := abs_le.mp hds.2
  constructor <;> linarith [h1.1, h1.2, h2.1, h2.2]

theorem audioUpdateCore_inv {env : EnvConsts} {params : SynthesiserParameters}
    {df0 : CascadeFilter} {s s2 : EngineState}
    (hEnv : GoodEnvBounds env) (hPar : GoodSnapshot params)
    (hHP : s.gateGainLowPassFilter.isHighPass = false)
    (hK : s.gateGainLowPassFilter.coefficient = env.kGate)
    (hG0 : 0 ≤ s.gateGainLowPassFilter.previousOutput)
    (hG1 : s.gateGainLowPassFilter.previousOutput ≤ 1)
    (hBuf : ∀ i, |s.delayBuffer i| ≤ 5/4)
    (hV0 : 0 ≤ s.vcoPeriodClock) (hV1 : s.vcoPeriodClock ≤ 1)
    (hNoise : |s.noise.returnValue| ≤ 1)
    (h : audioUpdateCore env params df0 s = some s2) :
    s2.synthesiserParameters = params ∧
    s2.pendingSynthesiserParameters = s.pendingSynthesiserParameters ∧
    s2.gateGainLowPassFilter.isHighPass = false ∧
    s2.gateGainLowPassFilter.coefficient = env.kGate ∧
    0 ≤ s2.gateGainLowPassFilter.previousOutput ∧
    s2.gateGainLowPassFilter.previousOutput ≤ 1 ∧
    (∀ i, |s2.delayBuffer i| ≤ 5/4) ∧
    0 ≤ s2.vcoPeriodClock ∧ s2.vcoPeriodClock ≤ 1 ∧
    |s2.noise.returnValue| ≤ 1 ∧
    -(3/2) ≤ s2.output ∧ s2.output ≤ 3/2 := by
  obtain ⟨hkg0, hkg1, hsine, htri, hsaw, hsq, hpul⟩ := hEnv
  obtain ⟨hfb0, hfb1, hft⟩ := hPar
  have hk0' : 0 ≤ s.gateGainLowPassFilter.coefficient := by rw [hK]; exact hkg0
  have hk1' : s.gateGainLowPassFilter.coefficient ≤ 1 := by rw [hK]; exact hkg1
  rw [audioUpdateCore] at h
  split at h
  · exact absurd h (by simp)
  · rename_i vcoOut noise1 hmatch
    dsimp only at h
    rw [Option.map_eq_some'] at h
    obtain ⟨ds, hds, h⟩ := h
    subst h
    obtain ⟨hvco, hnoise1⟩ :=
      vcoWaveformValue_bound hsine htri hsaw hsq hpul hV0 hV1 hNoise hmatch
    refine ⟨rfl, rfl, ?_, ?_, ?_, ?_, ?_, (limitNormalisedPeriod_mem _).1,
      (limitNormalisedPeriod_mem _).2, hnoise1, ?_, ?_⟩
    · exact ((gateSection_bound _ hHP hk0' hk1' hG0 hG1 hvco).1).trans hHP
    · exact ((gateSection_bound _ hHP hk0' hk1' hG0 hG1 hvco).2.1).trans hK
    · exact (gateSection_bound _ hHP hk0' hk1' hG0 hG1 hvco).2.2.1
    · exact (gateSection_bound _ hHP hk0' hk1' hG0 hG1 hvco).2.2.2.1
    · exact (delaySection_bound hfb0 hfb1 hft hBuf ds hds
        (gateSection_bound _ hHP hk0' hk1' hG0 hG1 hvco).2.2.2.2).1
    · exact (dry_plus_feedback_bound _ hHP hk0' hk1' hG0 hG1 hvco hfb0 hfb1 hft
        hBuf ds hds).1
    · exact (dry_plus_feedback_bound _ hHP hk0' hk1' hG0 hG1 hvco hfb0 hfb1 hft
        hBuf ds hds).2

theorem audioUpdate_inv {env : EnvConsts} {s s2 : EngineState}
    (hEnv : GoodEnvBounds env) (hInv : EngineInv env s)
    (h : audioUpdate env s = some s2) :
    EngineInv env s2 ∧ -(3/2) ≤ s2.output ∧ s2.output ≤ 3/2 := by
  obtain ⟨hPar, hPend, hHP, hK, hG0, hG1, hBuf, hV0, hV1, hNoise⟩ := hInv
  rw [audioUpdate] at h
  split at h
  · have hc := audioUpdateCore_inv hEnv hPend hHP hK hG0 hG1 hBuf hV0 hV1 hNoise h
    obtain ⟨hc1, hc2, hc3, hc4, hc5, hc6, hc7, hc8, hc9, hc10, hc11, hc12⟩ := hc
    exact ⟨⟨hc1 ▸ hPend, hc2 ▸ hPend, hc3, hc4, hc5, hc6, hc7, hc8, hc9, hc10⟩, hc11, hc12⟩
  · have hc := audioUpdateCore_inv hEnv hPar hHP hK hG0 hG1 hBuf hV0 hV1 hNoise h
    obtain ⟨hc1, hc2, hc3, hc4, hc5, hc6, hc7, hc8, hc9, hc10, hc11, hc12⟩ := hc
    exact ⟨⟨hc1 ▸ hPar, hc2 ▸ hPend, hc3, hc4, hc5, hc6, hc7, hc8, hc9, hc10⟩, hc11, hc12⟩

theorem applyExternalInputs_inv {env : EnvConsts} {inputs : ExternalInputs}
    {s : EngineState} (hpub : ∀ p, inputs.publish = some p → GoodSnapshot p)
    (hInv : EngineInv env s) : EngineInv env (applyExternalInputs inputs s) := by
  obtain ⟨h1, h2, h3, h4, h5, h6, h7, h8, h9, h10⟩ := hInv
  rw [applyExternalInputs]
  rcases inputs with ⟨pub, tr, sg⟩
  cases pub with
  | none =>
    cases sg with
    | none => cases tr <;> exact ⟨h1, h2, h3, h4, h5, h6, h7, h8, h9, h10⟩
    | some g => cases tr <;> exact ⟨h1, h2, h3, h4, h5, h6, h7, h8, h9, h10⟩
  | some p =>
    have hp := hpub p rfl
    cases sg with
    | none => cases tr <;> exact ⟨h1, hp, h3, h4, h5, h6, h7, h8, h9, h10⟩
    | some g => cases tr <;> exact ⟨h1, hp, h3, h4, h5, h6, h7, h8, h9, h10⟩

theorem goodSnapshot_zero : GoodSnapshot zeroSynthesiserParameters :=
  ⟨le_refl 0, (by norm_num : (0 : ℚ) ≤ 1), rfl⟩

theorem goodSnapshot_default : GoodSnapshot defaultSynthesiserParameters :=
  ⟨le_refl 0, (by norm_num : (0 : ℚ) ≤ 1), rfl⟩

theorem initialEngineState_inv {env : EnvConsts} :
    EngineInv env (initialEngineState env) := by
  refine ⟨goodSnapshot_zero, goodSnapshot_default, rfl, rfl, le_refl 0,
    (by norm_num : (0 : ℚ) ≤ 1), ?_, le_refl 0, (by norm_num : (0 : ℚ) ≤ 1),
    (by norm_num : |(1 : ℚ)| ≤ 1)⟩
  intro i
  show |(0 : ℚ)| ≤ 5/4
  norm_num

theorem engineStates_inv {env : EnvConsts} {ins : ℕ → ExternalInputs}
    (hEnv : GoodEnvBounds env) (hIns : GoodInputs ins) :
    ∀ n s, engineStates env ins n = some s → EngineInv env s := by
  intro n
  induction n with
  | zero =>
    intro s h
    injection h with h
    subst h
    exact initialEngineState_inv
  | succ n ih =>
    intro s h
    rw [engineStates] at h
    cases he : engineStates env ins n with
    | none =>
      rw [he] at h
      exact absurd h (by simp)
    | some s1 =>
      rw [he] at h
      simp only [Option.some_bind] at h
      rw [engineStep] at h
      have hInv1 := applyExternalInputs_inv (fun p hp => hIns n p hp) (ih s1 he)
      exact (audioUpdate_inv hEnv hInv1 h).1

/-- C6 amended: with the gate coefficient in `[0, 1]` and table amplitudes
within `[-1, 1]`, and with every adopted snapshot having delay feedback in
`[0, 1]` and the delay filter disabled, the sample computed by each
`AudioUpdate` invocation lies in `[-3/2, 3/2]`: the attenuated post-gate
dry signal lies in `[-1/4, 1/4]` and the added feedback sample in
`[-5/4, 5/4]` (delay-buffer samples reach `5/4` because the mixed-in
feedback is clamped to `[-1, 1]` only after the dry write), and the unclamped
sum can exceed `[-1, 1]`, which a reachable run attains. -/
theorem output_bounded_three_halves (env : EnvConsts) (ins : ℕ → ExternalInputs)
    (hEnv : GoodEnvBounds env) (hIns : GoodInputs ins) (n : ℕ) :
    outputWithin (3/2) (engineStates env ins (n + 1)) = true := by
  cases h : engineStates env ins (n + 1) with
  | none => rfl
  | some s =>
    rw [outputWithin]
    rw [decide_eq_true_eq]
    rw [engineStates] at h
    cases he : engineStates env ins n with
    | none =>
      rw [he] at h
      exact absurd h (by simp)
    | some s1 =>
      rw [he] at h
      simp only [Option.some_bind] at h
      rw [engineStep] at h
      have hInv1 := applyExternalInputs_inv (fun p hp => hIns n p hp)
        (engineStates_inv hEnv hIns n s1 he)
      have hb := audioUpdate_inv hEnv hInv1 h
      exact ⟨hb.2.1, hb.2.2⟩

/-- Witness for the amended C6: the concrete environment with quiet inputs
at the first invocation. -/
theorem output_bounded_three_halves_witness :
    (GoodEnvBounds envWitness ∧ GoodInputs insQuiet) ∧
    outputWithin (3/2) (engineStates envWitness insQuiet (0 + 1)) = true := by
  have hEnv : GoodEnvBounds envWitness := by
    refine ⟨by norm_num [envWitness], by norm_num [envWitness], ?_, ?_, ?_, ?_, ?_⟩ <;>
      intros <;> norm_num [envWitness]
  have hIns : GoodInputs insQuiet := by
    intro n p hp
    exact absurd hp (by simp [insQuiet, quietInputs])
  exact ⟨⟨hEnv, hIns⟩, output_bounded_three_halves envWitness insQuiet hEnv hIns 0⟩

set_option maxRecDepth 100000 in
/-- C6 counterexample: with full delay feedback, no delay filter, a
zero-frequency square-wave VCO and a short delay, the feedback loop drives
the computed sample above `1` by the ninth invocation — the unclamped sum
of the dry signal and the feedback sample leaves `[-1, 1]`. -/
theorem output_within_unit_claim_false : ¬ OutputAlwaysWithinUnit := by
  intro h
  have hGood : GoodEnv envWitness := by
    refine ⟨by norm_num [envWitness], by norm_num [envWitness], by norm_num [envWitness],
      by norm_num [envWitness], by norm_num [envWitness], by norm_num [envWitness],
      ?_, ?_, ?_, ?_, ?_⟩ <;> intros <;> norm_num [envWitness]
  have h8 := h envWitness hGood insWitness 8
  have hfalse : outputWithin 1 (engineStates envWitness insWitness 9) = false := by
    with_unfolding_all decide
  rw [show (8 : ℕ) + 1 = 9 from rfl] at h8
  rw [h8] at hfalse
  exact Bool.noConfusion hfalse

end DubSiren
